import Mathlib

/-!
Verification of the NLWeb-AskBucky ingestion and vector-sync pipeline.

This file gives a shallow embedding of the pipeline's core Python scripts:

* `code/python/robust_load_today.py`  — the resumable retry orchestrator
  (`RobustMenuLoader`), modelled in namespace `RobustLoad`.
* `code/python/load_today_to_qdrant.py` — the daily vector-sync loader,
  modelled in namespace `QdrantLoad`.
* `code/python/automation/cleanup_jsonld_week.py` — the retention sweeper,
  modelled in namespace `Cleanup`.
* `pyscripts/nutrislice_to_jsonld.py` — the canonicalizer, modelled in
  namespace `Canon`.
* `pyscripts/fetch_menu.py` — the feed fetcher, modelled in namespace
  `FetchMenu`.

External effects (subprocess results, HTTP responses, embedding calls,
unlink failures) are passed in as explicit oracles/flags; machine state
(the persisted `loading_state.json`, the Qdrant collection contents, the
file store) is passed explicitly.  Python truthiness (`if not grams`,
`or {}` defaults) is modelled explicitly where the source relies on it.
-/

namespace RobustLoad

/-- Outcome of one `subprocess.run` attempt inside
`RobustMenuLoader.load_single_file`: exit code 0 (`ok`), a non-zero exit
code or raised exception (`err`), or `subprocess.TimeoutExpired`
(`timeout`).  `err` and `timeout` differ only in the backoff sleep, which
has no bearing on control flow. -/
inductive AttemptResult
| ok
| err
| timeout
deriving DecidableEq, Repr

/-- The retry loop of `load_single_file`: `remaining` attempts are left and
`i` is the index of the next attempt.  Returns whether the file eventually
loaded, paired with the number of subprocess invocations actually made. -/
def attempts_go (oracle : Nat → AttemptResult) : Nat → Nat → Bool × Nat
| 0, _ => (false, 0)
| n + 1, i =>
  match oracle i with
  | .ok => (true, 1)
  | _ =>
    let r := attempts_go oracle n (i + 1)
    (r.1, r.2 + 1)

/-- `RobustMenuLoader.load_single_file(file_path, retries=3)`: up to 3
attempts, stopping at the first attempt whose subprocess exits 0. -/
def load_single_file (oracle : Nat → AttemptResult) : Bool × Nat :=
  attempts_go oracle 3 0

/-- The persisted loading state (`loading_state.json`): date, the files
recorded successful, the files recorded failed, and the total file count.
`site_name` is derived from `date` and carried implicitly. -/
structure LoadState where
  date : String
  successful_files : List String
  failed_files : List String
  total_files : Nat
deriving DecidableEq, Repr

/-- One iteration of the loop in `RobustMenuLoader.load_all_files`:
load the file (with retries), then append it to `successful_files` or
`failed_files`.  The second component is the invocation trace: one entry
per subprocess invocation made for this file. -/
def load_step (orc : String → Nat → AttemptResult) (st : LoadState) (f : String) :
    LoadState × List String :=
  let r := load_single_file (orc f)
  let st' :=
    if r.1 then { st with successful_files := st.successful_files ++ [f] }
    else { st with failed_files := st.failed_files ++ [f] }
  (st', List.replicate r.2 f)

/-- The file loop of `load_all_files`, threading the state and
concatenating the per-file invocation traces. -/
def load_files_go (orc : String → Nat → AttemptResult) :
    List String → LoadState → LoadState × List String
| [], st => (st, [])
| f :: fs, st =>
  let r := load_step orc st f
  let rest := load_files_go orc fs r.1
  (rest.1, r.2 ++ rest.2)

/-- `RobustMenuLoader.load_all_files`: sets `total_files` from the file
scan, then processes every found file in order.  Note that the loop runs
over every file returned by `find_todays_files`, with no check against
`successful_files`. -/
def load_all_files (orc : String → Nat → AttemptResult) (st : LoadState)
    (files : List String) : LoadState × List String :=
  load_files_go orc files { st with total_files := files.length }

/-- The `status` classification computed at the end of `load_all_files`. -/
def run_status (st : LoadState) : String :=
  if st.failed_files = [] then "success"
  else if st.successful_files ≠ [] then "partial"
  else "failed"

/-- `RobustMenuLoader.generate_report`: the success-rate line divides by
`total_files`, so a run with zero files raises `ZeroDivisionError`
(modelled as `.error ()`); otherwise the report is produced (the numeric
rate itself is irrelevant downstream, kept here as an integer percent). -/
def generate_report (st : LoadState) : Except Unit Nat :=
  if st.total_files = 0 then .error ()
  else .ok (st.successful_files.length * 100 / st.total_files)

/-- A fresh `RobustMenuLoader.__init__` state for a date. -/
def fresh (date : String) : LoadState :=
  ⟨date, [], [], 0⟩

/-- `RobustMenuLoader.load_state`: the persisted state is adopted exactly
when it exists and its `date` matches the loader's date. -/
def load_state (date : String) (persisted : Option LoadState) : Option LoadState :=
  match persisted with
  | some st => if st.date = date then some st else none
  | none => none

/-- The resume prompt in `main`: if a matching prior state was loaded and
the operator answers `y`, it is kept; on any other answer the success and
failure lists are cleared (`total_files` is not cleared, but is
overwritten by `load_all_files`). -/
def resolve_resume (date : String) (persisted : Option LoadState) (resumeY : Bool) :
    LoadState :=
  match load_state date persisted with
  | some st =>
    if resumeY then st
    else { st with successful_files := [], failed_files := [] }
  | none => fresh date

/-- Observable outcome of one `main()` run of `robust_load_today.py`. -/
structure MainOutcome where
  finalState : LoadState
  trace : List String
  reportError : Bool
  savedState : Option LoadState
  exitCode : Nat
deriving DecidableEq, Repr

/-- `main()` of `robust_load_today.py`: resolve resume, run
`load_all_files`, then `generate_report`; on an uncaught exception from
the report (ZeroDivisionError) the handler saves the state and exits 1;
otherwise the state is saved and the process ends normally. -/
def main_run (persisted : Option LoadState) (resumeY : Bool) (files : List String)
    (orc : String → Nat → AttemptResult) : MainOutcome :=
  let st0 := resolve_resume "2025-08-05" persisted resumeY
  let r := load_all_files orc st0 files
  match generate_report r.1 with
  | .error _ => ⟨r.1, r.2, true, some r.1, 1⟩
  | .ok _ => ⟨r.1, r.2, false, some r.1, 0⟩

end RobustLoad

namespace Cleanup

/-!
Model of `automation/cleanup_jsonld_week.py`.  Calendar dates are modelled
as an integer day index anchored so that day index `d` with `d % 7 = 0` is
a Monday — matching Python's `date.weekday()` (Monday = 0 … Sunday = 6),
which is the only calendar fact the script uses.
-/

/-- Python's `date.weekday()` on the day-index model: Monday = 0 … Sunday = 6. -/
def weekday (d : ℤ) : ℤ := d % 7

/-- `sunday_of(d)`: the Sunday on or before `d`
(`d - timedelta(days=(d.weekday() + 1) % 7)`). -/
def sunday_of (d : ℤ) : ℤ := d - (weekday d + 1) % 7

/-- One file under the canonical-document store (at any subfolder depth,
since the script scans with a recursive glob).  `tag` is the date encoded
by a trailing `_<ISO-date>.jsonld` suffix of the file's name (`none` when
the name has no such suffix, so no per-day glob ever matches it); `ok`
records whether `Path.unlink` succeeds on the file (a raised exception is
caught, printed, and the sweep continues). -/
structure JFile where
  tag : Option ℤ
  ok : Bool
deriving DecidableEq, Repr

/-- The inner loop of `main` for one day of the target week: every file
whose name ends with that day's suffix is unlinked; files whose unlink
fails remain; the number of successful deletions is returned. -/
def sweep_day (fs : List JFile) (d : ℤ) : List JFile × Nat :=
  (fs.filter fun f => !(decide (f.tag = some d) && f.ok),
   (fs.filter fun f => decide (f.tag = some d) && f.ok).length)

/-- `week = [last_sunday + timedelta(days=i) for i in range(7)]`. -/
def week_of (lastSunday : ℤ) : List ℤ :=
  (List.range 7).map (fun i => lastSunday + (i : ℤ))

/-- `main()` of the sweeper: compute `last_sunday = sunday_of(today) - 7`,
then for each day of that Sunday-through-Saturday week delete every file
carrying that day's suffix, accumulating the deleted count. -/
def cleanup_run (fs : List JFile) (today : ℤ) : List JFile × Nat :=
  let lastSunday := sunday_of today - 7
  (week_of lastSunday).foldl
    (fun acc d =>
      let r := sweep_day acc.1 d
      (r.1, acc.2 + r.2))
    (fs, 0)

/-- Whether a file's name encodes a date in the week `[L, L+6]`. -/
def tag_in_week (L : ℤ) (f : JFile) : Bool :=
  match f.tag with
  | some t => decide (L ≤ t ∧ t ≤ L + 6)
  | none => false

/-- Whether a file's name encodes a date listed in `ds`. -/
def tag_in (ds : List ℤ) (f : JFile) : Bool :=
  ds.any (fun d => decide (f.tag = some d))

end Cleanup

namespace Canon

/-!
Model of `pyscripts/nutrislice_to_jsonld.py` (`transform_menu` and its
helpers).  JSON numbers are modelled as rationals; `Option` fields model
JSON keys that may be missing or `null`; Python truthiness is made
explicit.  An `Option Food` of `none` models a `food` value that is
missing, `null`, or the empty dict — all falsy in Python and all treated
alike by both `nutrislice_to_jsonld.py` (`itm.get("food") or {}`) and
`fetch_menu.py` (`if itm.get("food")`).
-/

/-- Python truthiness of an optional number: `None` and `0` are falsy. -/
def qTruthy : Option ℚ → Bool
| none => false
| some q => decide (q ≠ 0)

/-- Python truthiness of an optional string: `None` and `""` are falsy. -/
def sTruthy : Option String → Bool
| none => false
| some s => decide (s ≠ "")

/-- Python `a or b` on optional strings. -/
def pyOrStr (a b : Option String) : Option String :=
  if sTruthy a then a else b

/-- Case-insensitive character-list prefix test (regex `flags=re.I`). -/
def ciStarts : List Char → List Char → Bool
| [], _ => true
| _ :: _, [] => false
| p :: ps, c :: cs => (p.toLower = c.toLower) && ciStarts ps cs

/-- Character-list prefix test. -/
def charsStarts : List Char → List Char → Bool
| [], _ => true
| _ :: _, [] => false
| p :: ps, c :: cs => (p = c) && charsStarts ps cs

/-- Substring test on character lists (Python's `needle in hay`). -/
def charsContain (needle : List Char) : List Char → Bool
| [] => charsStarts needle []
| c :: cs => charsStarts needle (c :: cs) || charsContain needle cs

/-- Python's `needle in hay` on strings. -/
def strContain (hay needle : String) : Bool :=
  charsContain needle.data hay.data

/-- Python `str.lower()` (character-wise lowering; kernel-reducible
counterpart of `String.toLower`). -/
def strLower (s : String) : String :=
  ⟨s.data.map Char.toLower⟩

/-- Python `str.startswith(pat)`. -/
def strStarts (s pat : String) : Bool :=
  charsStarts pat.data s.data

/-- Python `str.strip()` on a character list. -/
def trimWS (l : List Char) : List Char :=
  ((l.dropWhile Char.isWhitespace).reverse.dropWhile Char.isWhitespace).reverse

/-- Python `str.strip()` (kernel-reducible counterpart of `String.trim`). -/
def strTrim (s : String) : String :=
  ⟨trimWS s.data⟩

/-- `re.sub(pat, "", text, flags=re.I)` for a literal non-empty pattern:
remove every (case-insensitive, non-overlapping, left-to-right) occurrence
of `pat`.  The fuel argument, instantiated with the text length, makes the
recursion structural; every step consumes at least one character, so the
fuel never runs out. -/
def removeCIFuel (pat : List Char) : Nat → List Char → List Char
| 0, l => l
| _, [] => []
| n + 1, c :: cs =>
  if pat ≠ [] ∧ ciStarts pat (c :: cs) = true then
    removeCIFuel pat n ((c :: cs).drop pat.length)
  else
    c :: removeCIFuel pat n cs

/-- String version of `removeCIFuel`. -/
def removeCI (pat s : String) : String :=
  ⟨removeCIFuel pat.data s.data.length s.data⟩

/-- One step of Python `text.split()`: collect maximal non-whitespace
runs (`cur` is the reversed current run). -/
def pyWordsGo (cur : List Char) : List Char → List String
| [] => if cur = [] then [] else [⟨cur.reverse⟩]
| c :: cs =>
  if c.isWhitespace then
    if cur = [] then pyWordsGo [] cs
    else (⟨cur.reverse⟩ : String) :: pyWordsGo [] cs
  else pyWordsGo (c :: cur) cs

/-- Python `text.split()`: split on whitespace, dropping empty fields. -/
def pyWords (s : String) : List String :=
  pyWordsGo [] s.data

/-- Python `sep.join(parts)`. -/
def joinWith (sep : String) : List String → String
| [] => ""
| [x] => x
| x :: y :: rest => x ++ sep ++ joinWith sep (y :: rest)

/-- `clean_description`: strip the "prep time" / "cook time" boilerplate
(case-insensitively) and collapse whitespace (`" ".join(text.split())`). -/
def clean_description (text : String) : String :=
  if text = "" then ""
  else joinWith " " (pyWords (removeCI "cook time" (removeCI "prep time" text)))

/-- A character kept verbatim by `slugify`'s regex class `[a-z0-9]`. -/
def lowerAlnum (c : Char) : Bool :=
  decide ('a' ≤ c ∧ c ≤ 'z') || c.isDigit

/-- `re.sub(r"[^a-z0-9]+", "-", s)`: each maximal run of characters
outside `[a-z0-9]` becomes one dash.  Fueled like `removeCIFuel`. -/
def slugFuel : Nat → List Char → List Char
| 0, _ => []
| _, [] => []
| n + 1, c :: cs =>
  if lowerAlnum c then c :: slugFuel n cs
  else '-' :: slugFuel n (cs.dropWhile (fun d => !lowerAlnum d))

/-- Python `str.strip("-")` on a character list. -/
def trimDashes (l : List Char) : List Char :=
  ((l.dropWhile (fun c => c = '-')).reverse.dropWhile (fun c => c = '-')).reverse

/-- `slugify(s)`: lowercase, replace non-alphanumeric runs by `-`, strip
leading/trailing dashes. -/
def slugify (s : String) : String :=
  ⟨trimDashes (slugFuel s.data.length (s.data.map Char.toLower))⟩

/-- Python `str(x)` applied to a value that may be `None`. -/
def pyStrOpt : Option String → String
| none => "None"
| some s => s

/-- `map_diets`: Nutrislice tag → Schema.org Diet URI (an f-string, so a
`None` tag renders as the literal "None"). -/
def map_diets (tags : List (Option String)) : List String :=
  tags.map (fun t => "https://schema.org/" ++ pyStrOpt t ++ "Diet")

/-- One decimal place, Python's `round(x, 1)`.  (Python rounds the binary
float half-to-even; on the rational model the two differ only at exact
multiples of 0.05, which the fixed 28.3495 factor times a feed amount
never makes observable in any claim here.) -/
def round1 (q : ℚ) : ℚ := ((round (q * 10) : ℤ) : ℚ) / 10

/-- `oz_to_g`: `round(float(oz) * 28.3495, 1)`. -/
def oz_to_g (x : ℚ) : ℚ := round1 (x * (283495 / 10000))

/-- `food["rounded_nutrition_info"]`. -/
structure NutritionInfo where
  calories : Option ℚ := none
  g_protein : Option ℚ := none
  g_fat : Option ℚ := none
  g_carbs : Option ℚ := none
  mg_sodium : Option ℚ := none
  g_fiber : Option ℚ := none
  g_sugar : Option ℚ := none
  g_added_sugar : Option ℚ := none
deriving DecidableEq, Repr

/-- `food["serving_size_info"]`.  A missing/empty dict is the default
value (all fields absent), which the source treats identically
(`if size else None` / `if size else 0`). -/
structure ServingSizeInfo where
  serving_size_amount : Option ℚ := none
  serving_size_unit : String := ""
  serving_size_grams : Option ℚ := none
deriving DecidableEq, Repr

/-- One entry of `food["icons"]["food_icons"]`. -/
structure FoodIcon where
  slug : Option String := none
  synced_name : Option String := none
  is_filter : Bool := false
  is_highlight : Bool := false
deriving DecidableEq, Repr

/-- The `food` dict of a line-item.  String fields the source reads with
an `or ""` / default-`""` collapse are plain `String`s. -/
structure Food where
  name : String := ""
  description : String := ""
  file_url : String := ""
  image_url : String := ""
  synced_id : Option String := none
  rounded_nutrition_info : NutritionInfo := {}
  serving_size_info : ServingSizeInfo := {}
  food_icons : List FoodIcon := []
deriving DecidableEq, Repr

/-- One entry of a day's `menu_items`. -/
structure RawItem where
  is_section_title : Bool := false
  menu_id : String := ""
  food : Option Food := none
deriving DecidableEq, Repr

/-- `menu_info[id]["section_options"]`. -/
structure SectionOptions where
  display_name : Option String := none
deriving DecidableEq, Repr

/-- `menu_info[id]`. -/
structure SectionMeta where
  section_options : SectionOptions := {}
deriving DecidableEq, Repr

/-- One entry of `raw_json["days"]`. -/
structure Day where
  date : Option String := none
  menu_info : List (String × SectionMeta) := []
  menu_items : List RawItem := []
deriving DecidableEq, Repr

/-- A raw Nutrislice weekly dump (`raw_json`), also the parsed body seen
by `fetch_menu.py` (`school_slug = ""` models a missing/empty slug). -/
structure RawFeed where
  days : List Day := []
  school_slug : String := ""
deriving DecidableEq, Repr

/-- `day.get("date") or "unknown-date"`. -/
def menuDate (day : Day) : String :=
  match day.date with
  | some s => if s ≠ "" then s else "unknown-date"
  | none => "unknown-date"

/-- The bucketing loop `items_by_section` followed by the lookup
`items_by_section.get(menu_id, [])`: the day's non-section-title items
carrying this `menu_id`, in feed order. -/
def sectionItems (items : List RawItem) (mid : String) : List RawItem :=
  items.filter (fun i => !i.is_section_title && decide (i.menu_id = mid))

/-- The textual serving size: `f"{amount} {unit.strip()}".strip()` when the
amount is truthy, else `""`.  (`toString` on the rational stands in for
Python's number formatting; its output is only digits, `-`, and `/`, so
the "customer" marker test below is unaffected.) -/
def serving_txt (size : ServingSizeInfo) : String :=
  if qTruthy size.serving_size_amount then
    strTrim (toString (size.serving_size_amount.getD 0) ++ " "
      ++ strTrim size.serving_size_unit)
  else ""

/-- The header-row test:
`food_name.lower() == (section_name or "").strip().lower()` (with
`food_name` already `.strip()`-ed at extraction). -/
def header_row (sname food_name : String) : Bool :=
  decide (strLower food_name = strLower (strTrim sname))

/-- The exclusion-marker test: `"customer" in (serving_txt or "").lower()`. -/
def marker_row (size : ServingSizeInfo) : Bool :=
  strContain (strLower (serving_txt size)) "customer"

/-- The `grams` computation: keep an explicit (truthy) gram value; else if
the unit is non-empty and starts with "oz", convert the ounce amount
(missing amount defaults to 0).  A `null` amount makes Python's
`oz_to_g` return `None` where this model returns `0`; both are falsy at
the final `if grams:` and hence observationally identical. -/
def item_grams (size : ServingSizeInfo) : Option ℚ :=
  if !qTruthy size.serving_size_grams && decide (size.serving_size_unit ≠ "")
      && strStarts (strLower size.serving_size_unit) "oz" then
    some (oz_to_g (size.serving_size_amount.getD 0))
  else size.serving_size_grams

/-- Combined skip test for the two `continue`s of the item loop. -/
def keep_item (sname : String) (itm : RawItem) : Bool :=
  let food := itm.food.getD {}
  !header_row sname (strTrim food.name) && !marker_row food.serving_size_info

/-- `nutrition` sub-object of an output `MenuItem`. -/
structure NutritionOut where
  calories : Option ℚ
  proteinContent : Option ℚ
  fatContent : Option ℚ
  carbohydrateContent : Option ℚ
  sodiumContent : Option ℚ
  fiberContent : Option ℚ
  sugarContent : Option ℚ
  addedSugarContent : Option ℚ
deriving DecidableEq, Repr

/-- One `MenuItem` of the canonical JSON-LD output.  `servingWeight` and
`suitableForDiet` are `none` exactly when the source omits the key. -/
structure MenuItemOut where
  name : String
  description : String
  url : String
  image : String
  servingSize : String
  vendorID : Option String
  hall : String
  meal : String
  dietTags : List (Option String)
  nutrition : NutritionOut
  servingWeight : Option ℚ
  suitableForDiet : Option (List String)
deriving DecidableEq, Repr

/-- Construction of the output `mi` dict for one kept line-item. -/
def mkMenuItem (hall meal menu_date sname : String) (itm : RawItem) : MenuItemOut :=
  let food := itm.food.getD {}
  let nut := food.rounded_nutrition_info
  let size := food.serving_size_info
  let food_name := strTrim food.name
  let grams := item_grams size
  let tags := (food.food_icons.filter (fun i => i.is_filter || i.is_highlight)).map
    (fun i => pyOrStr i.slug i.synced_name)
  let raw_url := strTrim food.file_url
  let item_url :=
    if raw_url ≠ "" then raw_url
    else "menuitem://" ++ hall ++ "/" ++ meal ++ "/" ++ menu_date ++ "/"
      ++ slugify sname ++ "/" ++ slugify food_name
  { name := food_name
    description := clean_description food.description
    url := item_url
    image := food.image_url
    servingSize := serving_txt size
    vendorID := food.synced_id
    hall := hall
    meal := meal
    dietTags := tags
    nutrition := ⟨nut.calories, nut.g_protein, nut.g_fat, nut.g_carbs,
      nut.mg_sodium, nut.g_fiber, nut.g_sugar, nut.g_added_sugar⟩
    servingWeight := if qTruthy grams then grams else none
    suitableForDiet := if tags ≠ [] then some (map_diets tags) else none }

/-- The item loop over a section's bucketed items, with its two
`continue`s (header row, exclusion marker). -/
def buildItems (hall meal menu_date sname : String) : List RawItem → List MenuItemOut
| [] => []
| itm :: rest =>
  let food := itm.food.getD {}
  if header_row sname (strTrim food.name) then
    buildItems hall meal menu_date sname rest
  else if marker_row food.serving_size_info then
    buildItems hall meal menu_date sname rest
  else
    mkMenuItem hall meal menu_date sname itm :: buildItems hall meal menu_date sname rest

/-- One `MenuSection` of the output document. -/
structure MenuSectionOut where
  name : String
  hasMenuItem : List MenuItemOut
deriving DecidableEq, Repr

/-- One canonical `Menu` document. -/
structure MenuOut where
  name : String
  datePublished : String
  hall : String
  meal : String
  hasMenuSection : List MenuSectionOut
deriving DecidableEq, Repr

/-- The deterministic output filename
`<hall>_<meal>_<section lowercased/underscored>_<date>.jsonld`. -/
def out_fname (hall meal sname menu_date : String) : String :=
  hall ++ "_" ++ meal ++ "_"
    ++ strLower ⟨sname.data.map (fun c => if c = ' ' then '_' else c)⟩ ++ "_"
    ++ menu_date ++ ".jsonld"

/-- The body of the section loop: skip sections with a falsy
`display_name` or with no bucketed items, else build the document and its
filename. -/
def transformSection (hall meal : String) (day : Day) (entry : String × SectionMeta) :
    Option (MenuOut × String) :=
  match entry.2.section_options.display_name with
  | none => none
  | some sname =>
    if sname = "" then none
    else
      let items := sectionItems day.menu_items entry.1
      if items = [] then none
      else
        let md := menuDate day
        some
          ({ name := sname ++ " – " ++ md
             datePublished := md
             hall := hall
             meal := meal
             hasMenuSection := [⟨sname, buildItems hall meal md sname items⟩] },
           out_fname hall meal sname md)

/-- `transform_menu`: one `(menu_obj, fname)` per day per named non-empty
section, in feed order. -/
def transform_menu (raw : RawFeed) (hall meal : String) : List (MenuOut × String) :=
  raw.days.flatMap (fun day => day.menu_info.filterMap (transformSection hall meal day))

end Canon

namespace FetchMenu

/-!
Model of `pyscripts/fetch_menu.py`'s per-(hall, meal) `fetch` coroutine.
The HTTP response is an explicit input: its status and, when the body
parses as JSON, the parsed `Canon.RawFeed` (`none` models a body on which
`resp.json()` raises — caught by the surrounding `except`).
-/

/-- `menu_is_empty(d)`: no day has any line-item with a truthy `food`. -/
def menu_is_empty (d : Canon.RawFeed) : Bool :=
  d.days.all (fun day => day.menu_items.all (fun itm => itm.food.isNone))

/-- The raw file written for an open hall: week folder (the Sunday's ISO
date), filename `<slug>_<meal>_<sunday>.json`, and the saved body. -/
structure RawFileOut where
  folder : String
  fname : String
  content : Canon.RawFeed
deriving DecidableEq, Repr

/-- `fetch(session, slug, meal)`: skip on non-200 status, on a body where
every item's `food` is empty, or on a fallback response whose
`school_slug` is present and differs from the requested slug; otherwise
write the raw JSON keyed by week-start date. -/
def fetch (slug meal sunday : String) (status : Nat) (body : Option Canon.RawFeed) :
    Option RawFileOut :=
  if status ≠ 200 then none
  else
    match body with
    | none => none
    | some data =>
      if menu_is_empty data then none
      else if data.school_slug ≠ "" ∧ data.school_slug ≠ slug then none
      else some ⟨sunday, slug ++ "_" ++ meal ++ "_" ++ sunday ++ ".json", data⟩

end FetchMenu

namespace QdrantLoad

/-!
Model of `code/python/load_today_to_qdrant.py`.  The Qdrant service state
is explicit (`QdrantState`); the OpenAI embedding call is an oracle
`embed : String → Option (List ℚ)` (`none` models a raised/caught
provider error); the retirement `delete` call's success is a flag
(`deleteOk = false` models the caught exception of the
`try/except` around it).  Point ids are drawn from a counter standing in
for `uuid.uuid4()`; ids are never compared by the script, so collisions
are unobservable.
-/

/-- A parsed JSON document (a canonical JSON-LD file's content). -/
inductive Json
| str (s : String)
| num (q : ℚ)
| bool (b : Bool)
| null
| arr (xs : List Json)
| obj (kvs : List (String × Json))

/-- The keys whose string values `extract_text` collects. -/
def textKeys : List String := ["text", "content", "description", "name", "title"]

/-- Whether a JSON value is a string (`isinstance(v, str)`). -/
def isStr : Json → Bool
| .str _ => true
| _ => false

/-- The string payload of a JSON string (only used under `isStr`). -/
def strVal : Json → String
| .str s => s
| _ => ""

mutual

/-- `extract_text(obj)`: depth-first concatenation of the textual fields.
On a dict, for each key in order the value is appended when the key is a
text key holding a string, then the recursive extraction of the value;
empty parts are filtered before joining with a newline.  On a list, the
per-element extractions are joined with a newline without filtering. -/
def extract_text : Json → String
| .obj kvs => Canon.joinWith "\n" ((extract_obj kvs).filter (fun p => p ≠ ""))
| .arr xs => Canon.joinWith "\n" (extract_arr xs)
| .str s => s
| .num _ => ""
| .bool _ => ""
| .null => ""

/-- The `parts` list accumulated over a dict's entries. -/
def extract_obj : List (String × Json) → List String
| [] => []
| (k, v) :: rest =>
  (if k ∈ textKeys ∧ isStr v = true then [strVal v] else [])
    ++ extract_text v :: extract_obj rest

/-- The per-element extractions of a list value. -/
def extract_arr : List Json → List String
| [] => []
| x :: rest => extract_text x :: extract_arr rest

end

/-- The payload attached to an upserted point (`payload = {...}` in
`main`).  `schema_json` keeps the document itself (the source stores
`json.dumps(data)`; the dump is injective on parsed values, so keeping the
value is equivalent); `url`/`source` use the file name where the source
uses the full path. -/
structure QPayload where
  sitetag : String
  site : Option String
  name : String
  schema_json : Json
  url : String
  meal : Option String
  date : String
  source : String
  kind : String
  doc_id : String

/-- One vector point (`models.PointStruct`). -/
structure QPoint where
  id : Nat
  vector : List ℚ
  payload : QPayload

/-- One collection: embedding dimensionality, payload-indexed fields, and
stored points. -/
structure QCollection where
  dim : Nat
  indexed : List String
  points : List QPoint

/-- The Qdrant service state: named collections. -/
structure QdrantState where
  colls : List (String × QCollection)

/-- Look a collection up by name. -/
def findColl (st : QdrantState) (c : String) : Option QCollection :=
  (st.colls.find? (fun p => decide (p.1 = c))).map (fun p => p.2)

/-- Apply `f` to the collection named `c` (no-op when absent). -/
def modifyColl (st : QdrantState) (c : String) (f : QCollection → QCollection) :
    QdrantState :=
  ⟨st.colls.map (fun p => if p.1 = c then (p.1, f p.2) else p)⟩

/-- The indexed-set update a successful `create_payload_index` applies
("already exists" is accepted by the server and is not an error). -/
def addIdx (col : QCollection) (field : String) : QCollection :=
  if field ∈ col.indexed then col
  else { col with indexed := col.indexed ++ [field] }

/-- `client.create_payload_index`: an error on a missing collection;
otherwise add the field to the indexed set. -/
def create_payload_index (st : QdrantState) (c field : String) :
    Except String QdrantState :=
  match findColl st c with
  | none => .error "collection not found"
  | some _ => .ok (modifyColl st c (fun col => addIdx col field))

/-- A `create_payload_index` call wrapped in `try: ... except: pass`. -/
def try_create_index (st : QdrantState) (c field : String) : QdrantState :=
  match create_payload_index st c field with
  | .ok st' => st'
  | .error _ => st

/-- `ensure_indexes(client, coll)`: best-effort indexing of `sitetag` and
`doc_id`, exceptions swallowed. -/
def ensure_indexes (st : QdrantState) (c : String) : QdrantState :=
  try_create_index (try_create_index st c "sitetag") c "doc_id"

/-- `client.create_collection` (only ever called when absent). -/
def create_collection (st : QdrantState) (c : String) (dim : Nat) : QdrantState :=
  ⟨st.colls ++ [(c, ⟨dim, [], []⟩)]⟩

/-- The setup prefix of `main()`: `ensure_indexes` (before the collection
is known to exist!), then get-or-create the collection with the configured
embedding dimension, then best-effort indexing of `sitetag` and `site`.
The `update_collection` call only tunes the indexing threshold and has no
further modelled effect. -/
def loader_setup (st : QdrantState) (c : String) (emb_dim : Nat) : QdrantState :=
  let st1 := ensure_indexes st c
  let st2 :=
    match findColl st1 c with
    | some _ => st1
    | none => create_collection st1 c emb_dim
  let st3 := try_create_index st2 c "sitetag"
  try_create_index st3 c "site"

/-- The filter `sitetag = tag` (and `doc_id = d` when given). -/
def matchFilter (p : QPoint) (tag : String) (docId : Option String) : Bool :=
  decide (p.payload.sitetag = tag)
    && (match docId with
        | none => true
        | some d => decide (p.payload.doc_id = d))

/-- `client.count(..., exact=True)` under the filter (0 when the
collection is missing). -/
def count_filter (st : QdrantState) (c tag : String) (docId : Option String) : Nat :=
  ((findColl st c).map
    (fun col => (col.points.filter (fun p => matchFilter p tag docId)).length)).getD 0

/-- `exists_today_for_doc`: a positive count for (sitetag, doc_id). -/
def exists_today_for_doc (st : QdrantState) (c sitetag doc_id : String) : Bool :=
  decide (0 < count_filter st c sitetag (some doc_id))

/-- `client.delete` with a `sitetag = tag` filter selector. -/
def delete_by_sitetag (st : QdrantState) (c tag : String) : QdrantState :=
  modifyColl st c (fun col =>
    { col with points := col.points.filter (fun p => !decide (p.payload.sitetag = tag)) })

/-- `client.upsert`: append the batch (fresh uuid ids never collide). -/
def upsert (st : QdrantState) (c : String) (pts : List QPoint) : QdrantState :=
  modifyColl st c (fun col => { col with points := col.points ++ pts })

/-- A canonical file offered to the loader: its filename and its parsed
content (`none` models `json.loads`/read raising, caught by the source). -/
structure SrcFile where
  name : String
  content : Option Json

/-- `Path(path).stem`, also `name.rsplit(".", 1)[0]`: the name up to the
last dot (the whole name when there is no dot). -/
def file_doc_id (s : String) : String :=
  if s.data.contains '.' then
    ⟨(((s.data.reverse).dropWhile (fun c => c ≠ '.')).drop 1).reverse⟩
  else s

/-- Python `str.split("_")` (keeps empty fields). -/
def splitUnd : List Char → List (List Char)
| [] => [[]]
| c :: cs =>
  let r := splitUnd cs
  if c = '_' then [] :: r
  else
    match r with
    | [] => [[c]]
    | w :: ws => (c :: w) :: ws

/-- Association lookup in a JSON object (`"k" in data` / `data["k"]`). -/
def lookupKey (kvs : List (String × Json)) (k : String) : Option Json :=
  (kvs.find? (fun p => decide (p.1 = k))).map (fun p => p.2)

/-- The `item_name` extraction: `data["name"]`, else `data["title"]`, else
the first 100 characters of `data["description"]`, else `""`.  (The source
stores whatever JSON value sits there; non-string values are collapsed to
`""`, which no claim observes.) -/
def item_name (j : Json) : String :=
  match j with
  | .obj kvs =>
    match lookupKey kvs "name" with
    | some v => strVal v
    | none =>
      match lookupKey kvs "title" with
      | some v => strVal v
      | none =>
        match lookupKey kvs "description" with
        | some v => ⟨(strVal v).data.take 100⟩
        | none => ""
  | _ => ""

/-- The payload built for one staged point. -/
def mkPayload (t_tag today : String) (f : SrcFile) (data : Json) (doc_id : String) :
    QPayload :=
  let nm := file_doc_id f.name
  let parts := splitUnd nm.data
  { sitetag := t_tag
    site := (parts[0]?).map (fun w => (⟨w⟩ : String))
    name := item_name data
    schema_json := data
    url := "file://" ++ f.name
    meal := (parts[1]?).map (fun w => (⟨w⟩ : String))
    date := today
    source := f.name
    kind := "nutrislice"
    doc_id := doc_id }

/-- The running state of the upsert loop: service state, the staged batch
`pts`, the uuid counter, and the doc_ids actually embedded (a trace). -/
structure LoadFold where
  st : QdrantState
  pts : List QPoint
  nextId : Nat
  embedded : List String

/-- The body of the per-file loop of `main()`: skip when a point for
(today's sitetag, this doc_id) already exists; skip unreadable files,
empty extracted text, embedding errors and empty embeddings; otherwise
stage a point, flushing the batch at 128. -/
def process_file (embed : String → Option (List ℚ)) (coll t_tag today : String)
    (acc : LoadFold) (f : SrcFile) : LoadFold :=
  let doc_id := file_doc_id f.name
  if exists_today_for_doc acc.st coll t_tag doc_id then acc
  else
    match f.content with
    | none => acc
    | some data =>
      let text := Canon.strTrim (extract_text data)
      if text = "" then acc
      else
        match embed text with
        | none => acc
        | some emb =>
          if emb = [] then acc
          else
            let pt : QPoint := ⟨acc.nextId, emb, mkPayload t_tag today f data doc_id⟩
            let acc' : LoadFold := ⟨acc.st, acc.pts ++ [pt], acc.nextId + 1,
              acc.embedded ++ [doc_id]⟩
            if 128 ≤ acc'.pts.length then
              ⟨upsert acc'.st coll acc'.pts, [], acc'.nextId, acc'.embedded⟩
            else acc'

/-- `main()` after argument parsing: setup, best-effort retirement of
yesterday's partition, abort (`SystemExit`) when no file matches today,
else the per-file loop followed by the final flush. -/
def loader_run (st0 : QdrantState) (coll : String) (emb_dim : Nat)
    (today yesterday : String) (files : List SrcFile) (deleteOk : Bool)
    (embed : String → Option (List ℚ)) : Except String QdrantState :=
  let st1 := loader_setup st0 coll emb_dim
  let st2 := if deleteOk then delete_by_sitetag st1 coll ("menus_" ++ yesterday) else st1
  if files.isEmpty then .error "No JSON-LD found"
  else
    let acc := files.foldl (process_file embed coll ("menus_" ++ today) today)
      ⟨st2, [], 0, []⟩
    .ok (if acc.pts.isEmpty then acc.st else upsert acc.st coll acc.pts)

/-- The stored points of a collection (empty when absent). -/
def pointsOf (st : QdrantState) (c : String) : List QPoint :=
  ((findColl st c).map (fun col => col.points)).getD []

/-- Whether a file would produce a staged point against an empty
collection: readable content, non-empty extracted text, and a successful
non-empty embedding. -/
def contentful (embed : String → Option (List ℚ)) (f : SrcFile) : Prop :=
  ∃ data, f.content = some data
    ∧ Canon.strTrim (extract_text data) ≠ ""
    ∧ ∃ emb, embed (Canon.strTrim (extract_text data)) = some emb ∧ emb ≠ []

/-- A doc id is covered by a fold state when a matching point is already
stored in the collection or sits in the staged batch. -/
def covers (coll t_tag : String) (acc : LoadFold) (d : String) : Prop :=
  exists_today_for_doc acc.st coll t_tag d = true
  ∨ ∃ p ∈ acc.pts, p.payload.sitetag = t_tag ∧ p.payload.doc_id = d

end QdrantLoad

/-! ## Theorems -/

namespace QdrantLoad

/-- Helper: `modifyColl` maps the looked-up collection. -/
theorem findColl_modify (st : QdrantState) (c : String) (f : QCollection → QCollection) :
    findColl (modifyColl st c f) c = (findColl st c).map f := by
  obtain ⟨colls⟩ := st
  induction colls with
  | nil => rfl
  | cons p ps ih =>
    by_cases hp : p.1 = c
    · simp [findColl, modifyColl, List.find?_cons, hp]
    · have h1 : findColl (modifyColl ⟨p :: ps⟩ c f) c = findColl (modifyColl ⟨ps⟩ c f) c := by
        simp [findColl, modifyColl, List.find?_cons, hp]
      have h2 : findColl ⟨p :: ps⟩ c = findColl ⟨ps⟩ c := by
        simp [findColl, List.find?_cons, hp]
      rw [h1, h2, ih]

/-- Helper: creating a collection that was absent makes it found, empty,
with the configured dimension. -/
theorem findColl_create (st : QdrantState) (c : String) (dim : Nat)
    (h : findColl st c = none) :
    findColl (create_collection st c dim) c = some ⟨dim, [], []⟩ := by
  obtain ⟨colls⟩ := st
  induction colls with
  | nil => simp [findColl, create_collection, List.find?_cons]
  | cons p ps ih =>
    by_cases hp : p.1 = c
    · exfalso
      simp [findColl, List.find?_cons, hp] at h
    · have h0 : findColl ⟨ps⟩ c = none := by
        simpa [findColl, List.find?_cons, hp] using h
      have h1 : findColl (create_collection ⟨p :: ps⟩ c dim) c
          = findColl (create_collection ⟨ps⟩ c dim) c := by
        simp [findColl, create_collection, List.find?_cons, hp]
      rw [h1, ih h0]

/-- Helper: a caught `create_payload_index` call, as seen through the
collection lookup. -/
theorem findColl_try_create (st : QdrantState) (c field : String) :
    findColl (try_create_index st c field) c
      = (findColl st c).map (fun col => addIdx col field) := by
  cases h : findColl st c with
  | none =>
    rw [try_create_index, create_payload_index, h]
    simp [h]
  | some col =>
    rw [try_create_index, create_payload_index, h]
    simp only
    rw [findColl_modify, h]

/-- Helper: `addIdx` leaves dimension and points alone, adds the field,
and keeps previously indexed fields. -/
theorem addIdx_spec (col : QCollection) (field : String) :
    (addIdx col field).dim = col.dim
    ∧ (addIdx col field).points = col.points
    ∧ field ∈ (addIdx col field).indexed
    ∧ ∀ g ∈ col.indexed, g ∈ (addIdx col field).indexed := by
  by_cases h : field ∈ col.indexed
  · simp [addIdx, h]
  · simp [addIdx, h]
    exact fun g hg => Or.inl hg

/-- Helper: setup on a present collection only grows its indexed set. -/
theorem findColl_setup_some (st : QdrantState) (c : String) (d : Nat)
    (col : QCollection) (h : findColl st c = some col) :
    findColl (loader_setup st c d) c
      = some (addIdx (addIdx (addIdx (addIdx col "sitetag") "doc_id") "sitetag") "site") := by
  have h1 : findColl (ensure_indexes st c) c
      = some (addIdx (addIdx col "sitetag") "doc_id") := by
    rw [ensure_indexes, findColl_try_create, findColl_try_create, h]
    rfl
  unfold loader_setup
  rw [findColl_try_create, findColl_try_create]
  split
  · rw [h1]
    rfl
  · rename_i heq
    rw [h1] at heq
    exact Option.noConfusion heq

/-- Helper: setup on a missing collection creates it with the configured
dimension and indexes exactly `sitetag` and `site`. -/
theorem findColl_setup_none (st : QdrantState) (c : String) (d : Nat)
    (h : findColl st c = none) :
    findColl (loader_setup st c d) c = some ⟨d, ["sitetag", "site"], []⟩ := by
  have h1 : findColl (ensure_indexes st c) c = none := by
    rw [ensure_indexes, findColl_try_create, findColl_try_create, h]
    rfl
  unfold loader_setup
  rw [findColl_try_create, findColl_try_create]
  split
  · rename_i heq
    rw [h1] at heq
    exact Option.noConfusion heq
  · rw [findColl_create _ _ _ h1]
    rfl

/-- Helper: a delete filters the collection's points. -/
theorem pointsOf_delete (st : QdrantState) (c tag : String) :
    pointsOf (delete_by_sitetag st c tag) c
      = (pointsOf st c).filter (fun p => !decide (p.payload.sitetag = tag)) := by
  rw [pointsOf, delete_by_sitetag, findColl_modify]
  cases h : findColl st c <;> simp [pointsOf, h]

/-- Helper: an upsert into a present collection appends the batch. -/
theorem pointsOf_upsert_some (st : QdrantState) (c : String) (q : List QPoint)
    (col : QCollection) (h : findColl st c = some col) :
    pointsOf (upsert st c q) c = pointsOf st c ++ q := by
  rw [pointsOf, upsert, findColl_modify, h, pointsOf, h]
  rfl

/-- Helper: a non-empty points list implies the collection is present. -/
theorem found_of_mem_pointsOf {p : QPoint} {st : QdrantState} {c : String}
    (h : p ∈ pointsOf st c) : ∃ col, findColl st c = some col := by
  cases hc : findColl st c with
  | none =>
    rw [pointsOf, hc] at h
    simp at h
  | some col => exact ⟨col, rfl⟩

/-- Helper: an upsert keeps every stored point. -/
theorem mem_pointsOf_upsert_left {p : QPoint} {st : QdrantState} {c : String}
    {q : List QPoint} (h : p ∈ pointsOf st c) : p ∈ pointsOf (upsert st c q) c := by
  obtain ⟨col, hc⟩ := found_of_mem_pointsOf h
  rw [pointsOf_upsert_some st c q col hc]
  exact List.mem_append_left _ h

/-- Helper: a point present after an upsert was stored before or staged. -/
theorem mem_pointsOf_upsert {p : QPoint} {st : QdrantState} {c : String}
    {q : List QPoint} (h : p ∈ pointsOf (upsert st c q) c) :
    p ∈ pointsOf st c ∨ p ∈ q := by
  cases hc : findColl st c with
  | none =>
    rw [pointsOf, upsert, findColl_modify, hc] at h
    simp at h
  | some col =>
    rw [pointsOf_upsert_some st c q col hc] at h
    exact List.mem_append.mp h

/-- Helper: the count is the filtered length of the stored points. -/
theorem count_eq (st : QdrantState) (c tag : String) (docId : Option String) :
    count_filter st c tag docId
      = ((pointsOf st c).filter (fun p => matchFilter p tag docId)).length := by
  cases h : findColl st c <;> simp [count_filter, pointsOf, h]

/-- Helper: the doc-id-less filter only constrains the partition tag. -/
theorem matchFilter_none (p : QPoint) (tag : String) :
    matchFilter p tag none = decide (p.payload.sitetag = tag) := by
  simp [matchFilter]

/-- Helper: the existence check holds exactly when some stored point
carries (sitetag, doc_id). -/
theorem exists_iff_mem {st : QdrantState} {c t d : String} :
    exists_today_for_doc st c t d = true
      ↔ ∃ p ∈ pointsOf st c, matchFilter p t (some d) = true := by
  rw [exists_today_for_doc, count_eq]
  simp [List.length_pos_iff_exists_mem, List.mem_filter]

/-- Helper: setup always leaves the collection present. -/
theorem setup_found (st : QdrantState) (c : String) (d : Nat) :
    ∃ col', findColl (loader_setup st c d) c = some col' := by
  cases h : findColl st c with
  | some col => exact ⟨_, findColl_setup_some st c d col h⟩
  | none => exact ⟨_, findColl_setup_none st c d h⟩

/-- Helper: setup does not change the stored points of a present
collection (and a fresh collection starts empty). -/
theorem pointsOf_setup (st : QdrantState) (c : String) (d : Nat) :
    pointsOf (loader_setup st c d) c = pointsOf st c := by
  cases h : findColl st c with
  | some col =>
    obtain ⟨d1, p1, -, -⟩ := addIdx_spec col "sitetag"
    obtain ⟨d2, p2, -, -⟩ := addIdx_spec (addIdx col "sitetag") "doc_id"
    obtain ⟨d3, p3, -, -⟩ := addIdx_spec (addIdx (addIdx col "sitetag") "doc_id") "sitetag"
    obtain ⟨d4, p4, -, -⟩ := addIdx_spec
      (addIdx (addIdx (addIdx col "sitetag") "doc_id") "sitetag") "site"
    rw [pointsOf, findColl_setup_some st c d col h, pointsOf, h]
    simp [p4, p3, p2, p1]
  | none =>
    rw [pointsOf, findColl_setup_none st c d h, pointsOf, h]
    rfl

/-- Helper: one step of the per-file loop either leaves the fold state
unchanged (skip/short-circuit) or, for a contentful file with no existing
point, stages the point (flushing the batch at 128). -/
theorem process_file_cases (embed : String → Option (List ℚ))
    (coll t_tag today : String) (acc : LoadFold) (f : SrcFile) :
    process_file embed coll t_tag today acc f = acc
    ∨ ∃ data emb,
        f.content = some data
        ∧ Canon.strTrim (extract_text data) ≠ ""
        ∧ embed (Canon.strTrim (extract_text data)) = some emb
        ∧ emb ≠ []
        ∧ exists_today_for_doc acc.st coll t_tag (file_doc_id f.name) = false
        ∧ process_file embed coll t_tag today acc f
            = (if 128 ≤ (acc.pts ++ [(⟨acc.nextId, emb,
                    mkPayload t_tag today f data (file_doc_id f.name)⟩ : QPoint)]).length then
                 ⟨upsert acc.st coll (acc.pts ++ [(⟨acc.nextId, emb,
                    mkPayload t_tag today f data (file_doc_id f.name)⟩ : QPoint)]), [],
                  acc.nextId + 1, acc.embedded ++ [file_doc_id f.name]⟩
               else
                 ⟨acc.st, acc.pts ++ [(⟨acc.nextId, emb,
                    mkPayload t_tag today f data (file_doc_id f.name)⟩ : QPoint)],
                  acc.nextId + 1, acc.embedded ++ [file_doc_id f.name]⟩) := by
  by_cases hex : exists_today_for_doc acc.st coll t_tag (file_doc_id f.name) = true
  · left
    simp [process_file, hex]
  · have hex' : exists_today_for_doc acc.st coll t_tag (file_doc_id f.name) = false :=
      Bool.eq_false_iff.mpr hex
    cases hc : f.content with
    | none =>
      left
      simp [process_file, hex', hc]
    | some data =>
      by_cases ht : Canon.strTrim (extract_text data) = ""
      · left
        simp [process_file, hex', hc, ht]
      · cases he : embed (Canon.strTrim (extract_text data)) with
        | none =>
          left
          simp [process_file, hex', hc, ht, he]
        | some emb =>
          by_cases hemb : emb = []
          · left
            simp [process_file, hex', hc, ht, he, hemb]
          · right
            refine ⟨data, emb, rfl, ht, he, hemb, hex', ?_⟩
            simp [process_file, hex', hc, ht, he, hemb]

/-- Helper: appending to a common prefix is injective on strings. -/
theorem string_append_inj {p a b : String} (h : p ++ a = p ++ b) : a = b := by
  obtain ⟨lp⟩ := p
  obtain ⟨la⟩ := a
  obtain ⟨lb⟩ := b
  have hd : lp ++ la = lp ++ lb := congrArg String.data h
  exact congrArg String.mk (List.append_cancel_left hd)

/-- Helper: one loop step stores and stages only points tagged with
today's partition; points tagged with another partition never (re)appear. -/
theorem process_file_tags (embed : String → Option (List ℚ))
    (coll t_tag today y_tag : String) (hne : t_tag ≠ y_tag)
    (acc : LoadFold) (f : SrcFile)
    (h1 : ∀ p ∈ pointsOf acc.st coll, ¬ p.payload.sitetag = y_tag)
    (h2 : ∀ p ∈ acc.pts, p.payload.sitetag = t_tag) :
    (∀ p ∈ pointsOf (process_file embed coll t_tag today acc f).st coll,
      ¬ p.payload.sitetag = y_tag)
    ∧ ∀ p ∈ (process_file embed coll t_tag today acc f).pts,
      p.payload.sitetag = t_tag := by
  rcases process_file_cases embed coll t_tag today acc f with
    heq | ⟨data, emb, -, -, -, -, -, heq⟩
  · rw [heq]
    exact ⟨h1, h2⟩
  · rw [heq]
    split
    · constructor
      · intro p hp
        rcases mem_pointsOf_upsert hp with hmem | hmem
        · exact h1 p hmem
        · rcases List.mem_append.mp hmem with hmem2 | hmem2
          · rw [h2 p hmem2]
            exact hne
          · rw [List.mem_singleton] at hmem2
            subst hmem2
            exact hne
      · intro p hp
        simp at hp
    · constructor
      · exact h1
      · intro p hp
        rcases List.mem_append.mp hp with hmem | hmem
        · exact h2 p hmem
        · rw [List.mem_singleton] at hmem
          subst hmem
          rfl

/-- Helper: the whole per-file fold preserves the partition-tag facts. -/
theorem fold_file_tags (embed : String → Option (List ℚ))
    (coll t_tag today y_tag : String) (hne : t_tag ≠ y_tag) :
    ∀ (files : List SrcFile) (acc : LoadFold),
      (∀ p ∈ pointsOf acc.st coll, ¬ p.payload.sitetag = y_tag) →
      (∀ p ∈ acc.pts, p.payload.sitetag = t_tag) →
      (∀ p ∈ pointsOf (files.foldl (process_file embed coll t_tag today) acc).st coll,
        ¬ p.payload.sitetag = y_tag)
      ∧ ∀ p ∈ (files.foldl (process_file embed coll t_tag today) acc).pts,
        p.payload.sitetag = t_tag
| [], acc, h1, h2 => ⟨h1, h2⟩
| f :: fs, acc, h1, h2 => by
  rw [List.foldl_cons]
  obtain ⟨h1a, h2a⟩ := process_file_tags embed coll t_tag today y_tag hne acc f h1 h2
  exact fold_file_tags embed coll t_tag today y_tag hne fs _ h1a h2a

/-- Helper: an upsert, as seen through the collection lookup. -/
theorem findColl_upsert (st : QdrantState) (c : String) (q : List QPoint) :
    findColl (upsert st c q) c
      = (findColl st c).map (fun col => { col with points := col.points ++ q }) := by
  rw [upsert, findColl_modify]

/-- Helper: a matching point carries the filtered partition tag. -/
theorem matchFilter_site {p : QPoint} {t : String} {dId : Option String}
    (h : matchFilter p t dId = true) : p.payload.sitetag = t := by
  simp [matchFilter] at h
  exact h.1

/-- Helper: one loop step keeps the collection present. -/
theorem process_file_found (embed : String → Option (List ℚ))
    (coll t_tag today : String) (acc : LoadFold) (f : SrcFile)
    (h : ∃ col, findColl acc.st coll = some col) :
    ∃ col, findColl (process_file embed coll t_tag today acc f).st coll = some col := by
  rcases process_file_cases embed coll t_tag today acc f with
    heq | ⟨data, emb, -, -, -, -, -, heq⟩
  · rw [heq]
    exact h
  · rw [heq]
    split
    · obtain ⟨col, hcol⟩ := h
      show ∃ col, findColl (upsert acc.st coll _) coll = some col
      rw [findColl_upsert, hcol]
      exact ⟨_, rfl⟩
    · exact h

/-- Helper: the whole fold keeps the collection present. -/
theorem fold_found (embed : String → Option (List ℚ)) (coll t_tag today : String) :
    ∀ (files : List SrcFile) (acc : LoadFold),
      (∃ col, findColl acc.st coll = some col) →
      ∃ col, findColl ((files.foldl (process_file embed coll t_tag today) acc)).st coll
        = some col
| [], _, h => h
| f :: fs, acc, h => by
  rw [List.foldl_cons]
  exact fold_found embed coll t_tag today fs _
    (process_file_found embed coll t_tag today acc f h)

/-- Helper: one loop step preserves coverage of any doc id. -/
theorem process_file_covers_mono (embed : String → Option (List ℚ))
    (coll t_tag today : String) (acc : LoadFold) (f : SrcFile) (d : String)
    (hfound : ∃ col, findColl acc.st coll = some col)
    (hc : covers coll t_tag acc d) :
    covers coll t_tag (process_file embed coll t_tag today acc f) d := by
  rcases process_file_cases embed coll t_tag today acc f with
    heq | ⟨data, emb, -, -, -, -, -, heq⟩
  · rw [heq]
    exact hc
  · rw [heq]
    split
    · left
      show exists_today_for_doc (upsert acc.st coll _) coll t_tag d = true
      rcases hc with hex | ⟨p, hp, hsite, hdoc⟩
      · rw [exists_iff_mem] at hex ⊢
        obtain ⟨p, hp, hm⟩ := hex
        exact ⟨p, mem_pointsOf_upsert_left hp, hm⟩
      · rw [exists_iff_mem]
        obtain ⟨col, hcol⟩ := hfound
        refine ⟨p, ?_, ?_⟩
        · rw [pointsOf_upsert_some _ _ _ col hcol]
          exact List.mem_append_right _ (List.mem_append_left _ hp)
        · simp [matchFilter, hsite, hdoc]
    · rcases hc with hex | ⟨p, hp, hsite, hdoc⟩
      · left
        exact hex
      · right
        exact ⟨p, List.mem_append_left _ hp, hsite, hdoc⟩

/-- Helper: processing a contentful file leaves its doc id covered. -/
theorem process_file_covers_new (embed : String → Option (List ℚ))
    (coll t_tag today : String) (acc : LoadFold) (f : SrcFile)
    (hfound : ∃ col, findColl acc.st coll = some col)
    (hcf : contentful embed f) :
    covers coll t_tag (process_file embed coll t_tag today acc f)
      (file_doc_id f.name) := by
  by_cases hex : exists_today_for_doc acc.st coll t_tag (file_doc_id f.name) = true
  · have heq : process_file embed coll t_tag today acc f = acc := by
      simp [process_file, hex]
    rw [heq]
    left
    exact hex
  · have hex' : exists_today_for_doc acc.st coll t_tag (file_doc_id f.name) = false :=
      Bool.eq_false_iff.mpr hex
    obtain ⟨data, hdata, htext, emb, hembeq, hembne⟩ := hcf
    have hform : process_file embed coll t_tag today acc f
        = (if 128 ≤ (acc.pts ++ [(⟨acc.nextId, emb,
                mkPayload t_tag today f data (file_doc_id f.name)⟩ : QPoint)]).length then
             ⟨upsert acc.st coll (acc.pts ++ [(⟨acc.nextId, emb,
                mkPayload t_tag today f data (file_doc_id f.name)⟩ : QPoint)]), [],
              acc.nextId + 1, acc.embedded ++ [file_doc_id f.name]⟩
           else
             ⟨acc.st, acc.pts ++ [(⟨acc.nextId, emb,
                mkPayload t_tag today f data (file_doc_id f.name)⟩ : QPoint)],
              acc.nextId + 1, acc.embedded ++ [file_doc_id f.name]⟩) := by
      simp [process_file, hex', hdata, htext, hembeq, hembne]
    rw [hform]
    split
    · left
      show exists_today_for_doc (upsert acc.st coll _) coll t_tag _ = true
      rw [exists_iff_mem]
      obtain ⟨col, hcol⟩ := hfound
      refine ⟨⟨acc.nextId, emb, mkPayload t_tag today f data (file_doc_id f.name)⟩,
        ?_, ?_⟩
      · rw [pointsOf_upsert_some _ _ _ col hcol]
        exact List.mem_append_right _ (List.mem_append_right _ (List.mem_singleton.mpr rfl))
      · simp [matchFilter, mkPayload]
    · right
      exact ⟨⟨acc.nextId, emb, mkPayload t_tag today f data (file_doc_id f.name)⟩,
        List.mem_append_right _ (List.mem_singleton.mpr rfl), rfl, rfl⟩

/-- Helper: the fold preserves coverage. -/
theorem fold_covers (embed : String → Option (List ℚ)) (coll t_tag today : String) :
    ∀ (files : List SrcFile) (acc : LoadFold) (d : String),
      (∃ col, findColl acc.st coll = some col) →
      covers coll t_tag acc d →
      covers coll t_tag (files.foldl (process_file embed coll t_tag today) acc) d
| [], _, _, _, hc => hc
| f :: fs, acc, d, hfound, hc => by
  rw [List.foldl_cons]
  exact fold_covers embed coll t_tag today fs _ d
    (process_file_found embed coll t_tag today acc f hfound)
    (process_file_covers_mono embed coll t_tag today acc f d hfound hc)

/-- Helper: after the fold, every contentful file's doc id is covered. -/
theorem fold_covers_of_mem (embed : String → Option (List ℚ))
    (coll t_tag today : String) :
    ∀ (files : List SrcFile) (acc : LoadFold),
      (∃ col, findColl acc.st coll = some col) →
      ∀ f ∈ files, contentful embed f →
        covers coll t_tag (files.foldl (process_file embed coll t_tag today) acc)
          (file_doc_id f.name)
| [], _, _, f, hf, _ => absurd hf (List.not_mem_nil f)
| f0 :: fs, acc, hfound, f, hf, hcf => by
  rw [List.foldl_cons]
  rcases List.mem_cons.mp hf with heq | hmem
  · subst heq
    exact fold_covers embed coll t_tag today fs _ _
      (process_file_found embed coll t_tag today acc f hfound)
      (process_file_covers_new embed coll t_tag today acc f hfound hcf)
  · exact fold_covers_of_mem embed coll t_tag today fs _
      (process_file_found embed coll t_tag today acc f0 hfound) f hmem hcf

/-- Helper: the final flush turns coverage into a stored point. -/
theorem final_flush_exists (coll t_tag : String) (acc : LoadFold) (d : String)
    (hfound : ∃ col, findColl acc.st coll = some col)
    (hc : covers coll t_tag acc d) :
    exists_today_for_doc
        (if acc.pts.isEmpty then acc.st else upsert acc.st coll acc.pts)
        coll t_tag d = true := by
  by_cases hpe : acc.pts.isEmpty
  · rw [if_pos hpe]
    rcases hc with hex | ⟨p, hp, -, -⟩
    · exact hex
    · rw [List.isEmpty_iff] at hpe
      rw [hpe] at hp
      exact absurd hp (List.not_mem_nil p)
  · rw [if_neg hpe]
    rcases hc with hex | ⟨p, hp, hsite, hdoc⟩
    · rw [exists_iff_mem] at hex ⊢
      obtain ⟨p, hp, hm⟩ := hex
      exact ⟨p, mem_pointsOf_upsert_left hp, hm⟩
    · rw [exists_iff_mem]
      obtain ⟨col, hcol⟩ := hfound
      refine ⟨p, ?_, ?_⟩
      · rw [pointsOf_upsert_some _ _ _ col hcol]
        exact List.mem_append_right _ hp
      · simp [matchFilter, hsite, hdoc]

/-- Helper: deleting a partition keeps the collection present. -/
theorem found_delete {st : QdrantState} {c : String} (tag : String)
    (h : ∃ col, findColl st c = some col) :
    ∃ col, findColl (delete_by_sitetag st c tag) c = some col := by
  obtain ⟨col, hcol⟩ := h
  rw [delete_by_sitetag, findColl_modify, hcol]
  exact ⟨_, rfl⟩

/-- Helper: the existence check is insensitive to setup. -/
theorem exists_after_setup (st : QdrantState) (c : String) (dim : Nat)
    (t dd : String) :
    exists_today_for_doc (loader_setup st c dim) c t dd
      = exists_today_for_doc st c t dd := by
  rw [exists_today_for_doc, exists_today_for_doc, count_eq, count_eq, pointsOf_setup]

/-- Helper: retiring a different partition preserves the existence check. -/
theorem exists_after_delete {st : QdrantState} {c t dd : String} (y : String)
    (htag : t ≠ y) (h : exists_today_for_doc st c t dd = true) :
    exists_today_for_doc (delete_by_sitetag st c y) c t dd = true := by
  rw [exists_iff_mem] at h ⊢
  obtain ⟨p, hp, hm⟩ := h
  refine ⟨p, ?_, hm⟩
  rw [pointsOf_delete]
  refine List.mem_filter.mpr ⟨hp, ?_⟩
  have hsite := matchFilter_site hm
  simp [hsite, htag]

/-- Helper: a fold whose steps all fix the accumulator is the identity. -/
theorem foldl_fixed {α β : Type} (g : α → β → α) :
    ∀ (l : List β) (a : α), (∀ x ∈ l, g a x = a) → l.foldl g a = a
| [], _, _ => rfl
| x :: xs, a, h => by
  rw [List.foldl_cons, h x (List.mem_cons_self x xs)]
  exact foldl_fixed g xs a (fun y hy => h y (List.mem_cons_of_mem x hy))

/-- Helper: a loop step over an already-covered (or non-contentful) file
changes nothing. -/
theorem process_file_fixed (embed : String → Option (List ℚ))
    (coll t_tag today : String) (acc : LoadFold) (f : SrcFile)
    (h : contentful embed f →
      exists_today_for_doc acc.st coll t_tag (file_doc_id f.name) = true) :
    process_file embed coll t_tag today acc f = acc := by
  by_cases hex : exists_today_for_doc acc.st coll t_tag (file_doc_id f.name) = true
  · simp [process_file, hex]
  · have hex' : exists_today_for_doc acc.st coll t_tag (file_doc_id f.name) = false :=
      Bool.eq_false_iff.mpr hex
    cases hc : f.content with
    | none => simp [process_file, hex', hc]
    | some data =>
      by_cases ht : Canon.strTrim (extract_text data) = ""
      · simp [process_file, hex', hc, ht]
      · cases he : embed (Canon.strTrim (extract_text data)) with
        | none => simp [process_file, hex', hc, ht, he]
        | some emb =>
          by_cases hemb : emb = []
          · simp [process_file, hex', hc, ht, he, hemb]
          · exact absurd (h ⟨data, hc, ht, emb, he, hemb⟩) hex

/-- Helper: a completed run leaves the collection present and every
contentful file's doc id answered positively by the existence check. -/
theorem loader_run_post (st0 : QdrantState) (coll : String) (emb_dim : Nat)
    (today yesterday : String) (files : List SrcFile) (deleteOk : Bool)
    (embed : String → Option (List ℚ)) (hfiles : files ≠ []) :
    ∃ st1, loader_run st0 coll emb_dim today yesterday files deleteOk embed = .ok st1
      ∧ (∃ col, findColl st1 coll = some col)
      ∧ ∀ f ∈ files, contentful embed f →
          exists_today_for_doc st1 coll ("menus_" ++ today) (file_doc_id f.name)
            = true := by
  have hfe : files.isEmpty = false := by
    cases files with
    | nil => exact absurd rfl hfiles
    | cons a l => rfl
  have hfound0 : ∃ col, findColl
      (if deleteOk then
        delete_by_sitetag (loader_setup st0 coll emb_dim) coll ("menus_" ++ yesterday)
      else loader_setup st0 coll emb_dim) coll = some col := by
    cases deleteOk with
    | false => simpa using setup_found st0 coll emb_dim
    | true => simpa using found_delete _ (setup_found st0 coll emb_dim)
  have hrun : loader_run st0 coll emb_dim today yesterday files deleteOk embed
      = .ok (if (files.foldl (process_file embed coll ("menus_" ++ today) today)
              ⟨(if deleteOk then
                  delete_by_sitetag (loader_setup st0 coll emb_dim) coll
                    ("menus_" ++ yesterday)
                else loader_setup st0 coll emb_dim), [], 0, []⟩).pts.isEmpty then
            (files.foldl (process_file embed coll ("menus_" ++ today) today)
              ⟨(if deleteOk then
                  delete_by_sitetag (loader_setup st0 coll emb_dim) coll
                    ("menus_" ++ yesterday)
                else loader_setup st0 coll emb_dim), [], 0, []⟩).st
          else
            upsert
              (files.foldl (process_file embed coll ("menus_" ++ today) today)
                ⟨(if deleteOk then
                    delete_by_sitetag (loader_setup st0 coll emb_dim) coll
                      ("menus_" ++ yesterday)
                  else loader_setup st0 coll emb_dim), [], 0, []⟩).st
              coll
              (files.foldl (process_file embed coll ("menus_" ++ today) today)
                ⟨(if deleteOk then
                    delete_by_sitetag (loader_setup st0 coll emb_dim) coll
                      ("menus_" ++ yesterday)
                  else loader_setup st0 coll emb_dim), [], 0, []⟩).pts) := by
    rw [loader_run]
    simp only [hfe, Bool.false_eq_true, if_false]
  have hfoundF := fold_found embed coll ("menus_" ++ today) today files
    ⟨(if deleteOk then
        delete_by_sitetag (loader_setup st0 coll emb_dim) coll ("menus_" ++ yesterday)
      else loader_setup st0 coll emb_dim), [], 0, []⟩ hfound0
  refine ⟨_, hrun, ?_, ?_⟩
  · by_cases hpe : (files.foldl (process_file embed coll ("menus_" ++ today) today)
        ⟨(if deleteOk then
            delete_by_sitetag (loader_setup st0 coll emb_dim) coll
              ("menus_" ++ yesterday)
          else loader_setup st0 coll emb_dim), [], 0, []⟩).pts.isEmpty
    · rw [if_pos hpe]
      exact hfoundF
    · rw [if_neg hpe]
      obtain ⟨col, hcol⟩ := hfoundF
      rw [findColl_upsert, hcol]
      exact ⟨_, rfl⟩
  · intro f hf hcf
    exact final_flush_exists coll ("menus_" ++ today) _ _ hfoundF
      (fold_covers_of_mem embed coll ("menus_" ++ today) today files _ hfound0 f hf hcf)

end QdrantLoad

/-- **C3, counterexample** — on a first run where the collection does not
yet exist, the setup step leaves `doc_id` unindexed: `ensure_indexes` (the
only place that indexes `doc_id`) runs before the collection is created,
its calls fail against the missing collection and are swallowed, and the
post-creation indexing covers only `sitetag` and `site`.  This refutes the
claim that after setup `doc_id`, the partition-tag field and the entity
field are all indexed "including a first run". -/
theorem C3_counterexample :
    QdrantLoad.findColl (QdrantLoad.loader_setup ⟨[]⟩ "askbucky" 1536) "askbucky"
      = some ⟨1536, ["sitetag", "site"], []⟩
    ∧ "doc_id" ∉ (["sitetag", "site"] : List String) := by
  exact ⟨QdrantLoad.findColl_setup_none ⟨[]⟩ "askbucky" 1536 rfl, by decide⟩

/-- **C3, amended** — Setup never raises.  When the collection already
exists, after setup it still exists with its dimension and points
untouched and with `sitetag`, `doc_id` and `site` all indexed (prior
indexes kept).  When it does not exist, after setup it exists with the
configured embedding dimension and with `sitetag` and `site` — but not
`doc_id` — indexed.  Running setup a second time (the collection then
existing) leaves all three fields indexed. -/
theorem C3_collection_setup (st : QdrantLoad.QdrantState) (c : String) (d : Nat) :
    (∀ col, QdrantLoad.findColl st c = some col →
      ∃ col', QdrantLoad.findColl (QdrantLoad.loader_setup st c d) c = some col'
        ∧ col'.dim = col.dim ∧ col'.points = col.points
        ∧ "sitetag" ∈ col'.indexed ∧ "doc_id" ∈ col'.indexed ∧ "site" ∈ col'.indexed
        ∧ ∀ fld ∈ col.indexed, fld ∈ col'.indexed)
    ∧ (QdrantLoad.findColl st c = none →
      QdrantLoad.findColl (QdrantLoad.loader_setup st c d) c
        = some ⟨d, ["sitetag", "site"], []⟩)
    ∧ (∃ col2, QdrantLoad.findColl
          (QdrantLoad.loader_setup (QdrantLoad.loader_setup st c d) c d) c = some col2
        ∧ "sitetag" ∈ col2.indexed ∧ "doc_id" ∈ col2.indexed ∧ "site" ∈ col2.indexed) := by
  refine ⟨?_, QdrantLoad.findColl_setup_none st c d, ?_⟩
  · intro col h
    obtain ⟨d1, p1, m1, k1⟩ := QdrantLoad.addIdx_spec col "sitetag"
    obtain ⟨d2, p2, m2, k2⟩ := QdrantLoad.addIdx_spec
      (QdrantLoad.addIdx col "sitetag") "doc_id"
    obtain ⟨d3, p3, m3, k3⟩ := QdrantLoad.addIdx_spec
      (QdrantLoad.addIdx (QdrantLoad.addIdx col "sitetag") "doc_id") "sitetag"
    obtain ⟨d4, p4, m4, k4⟩ := QdrantLoad.addIdx_spec
      (QdrantLoad.addIdx (QdrantLoad.addIdx (QdrantLoad.addIdx col "sitetag") "doc_id")
        "sitetag") "site"
    refine ⟨_, QdrantLoad.findColl_setup_some st c d col h, ?_, ?_, ?_, ?_, ?_, ?_⟩
    · rw [d4, d3, d2, d1]
    · rw [p4, p3, p2, p1]
    · exact k4 _ (k3 _ (k2 _ m1))
    · exact k4 _ (k3 _ m2)
    · exact m4
    · intro fld hf
      exact k4 _ (k3 _ (k2 _ (k1 _ hf)))
  · obtain ⟨colX, hX⟩ : ∃ colX,
        QdrantLoad.findColl (QdrantLoad.loader_setup st c d) c = some colX := by
      cases h : QdrantLoad.findColl st c with
      | some col => exact ⟨_, QdrantLoad.findColl_setup_some st c d col h⟩
      | none => exact ⟨_, QdrantLoad.findColl_setup_none st c d h⟩
    obtain ⟨_, _, m1, _⟩ := QdrantLoad.addIdx_spec colX "sitetag"
    obtain ⟨_, _, m2, k2⟩ := QdrantLoad.addIdx_spec
      (QdrantLoad.addIdx colX "sitetag") "doc_id"
    obtain ⟨_, _, m3, k3⟩ := QdrantLoad.addIdx_spec
      (QdrantLoad.addIdx (QdrantLoad.addIdx colX "sitetag") "doc_id") "sitetag"
    obtain ⟨_, _, m4, k4⟩ := QdrantLoad.addIdx_spec
      (QdrantLoad.addIdx (QdrantLoad.addIdx (QdrantLoad.addIdx colX "sitetag") "doc_id")
        "sitetag") "site"
    exact ⟨_, QdrantLoad.findColl_setup_some _ c d colX hX,
      k4 _ (k3 _ (k2 _ m1)), k4 _ (k3 _ m2), m4⟩

/-- Witness for the amended C3: a state where `askbucky` already exists
with only `doc_id` indexed gains `sitetag` and `site` and keeps everything
else; a fresh state gets the collection created at dimension 1536 with
`sitetag` and `site` indexed. -/
theorem C3_collection_setup_witness :
    (∃ col', QdrantLoad.findColl
        (QdrantLoad.loader_setup ⟨[("askbucky", ⟨1536, ["doc_id"], []⟩)]⟩
          "askbucky" 1536) "askbucky" = some col'
      ∧ col'.dim = 1536 ∧ col'.points = ([] : List QdrantLoad.QPoint)
      ∧ "sitetag" ∈ col'.indexed ∧ "doc_id" ∈ col'.indexed ∧ "site" ∈ col'.indexed
      ∧ ∀ fld ∈ (["doc_id"] : List String), fld ∈ col'.indexed)
    ∧ QdrantLoad.findColl (QdrantLoad.loader_setup ⟨[]⟩ "askbucky" 1536) "askbucky"
        = some ⟨1536, ["sitetag", "site"], []⟩ :=
  ⟨(C3_collection_setup ⟨[("askbucky", ⟨1536, ["doc_id"], []⟩)]⟩ "askbucky" 1536).1
      ⟨1536, ["doc_id"], []⟩ rfl,
   (C3_collection_setup ⟨[]⟩ "askbucky" 1536).2.1 rfl⟩

/-- **C4, counterexample** — the retirement delete is wrapped in a
`try/except` that only logs, so a daily run in which the delete fails
still completes successfully while a VectorPoint tagged with yesterday's
partition remains: a count on yesterday's tag then returns 1, not 0. -/
theorem C4_counterexample :
    ∃ st', QdrantLoad.loader_run
        ⟨[("askbucky", ⟨1536, ["sitetag", "doc_id", "site"],
          [⟨0, [1], ⟨"menus_2025-08-04", none, "", .null, "", none, "2025-08-04", "",
            "nutrislice", "d"⟩⟩]⟩)]⟩
        "askbucky" 1536 "2025-08-05" "2025-08-04"
        [⟨"a_b_2025-08-05.jsonld", none⟩] false (fun _ => none)
      = .ok st'
    ∧ QdrantLoad.count_filter st' "askbucky" "menus_2025-08-04" none = 1 :=
  ⟨_, rfl, rfl⟩

/-- **C4, amended** — After a daily Loader run for the pair
(today, yesterday) completes successfully *and the best-effort retirement
delete did not fail*, no VectorPoint whose partition tag equals
`menus_<yesterday>` remains: a count query filtered on yesterday's
partition tag returns 0. -/
theorem C4_partition_retirement (st0 : QdrantLoad.QdrantState) (coll : String)
    (emb_dim : Nat) (today yesterday : String) (files : List QdrantLoad.SrcFile)
    (embed : String → Option (List ℚ))
    (hfiles : files ≠ []) (hne : today ≠ yesterday) :
    ∃ st', QdrantLoad.loader_run st0 coll emb_dim today yesterday files true embed
        = .ok st'
      ∧ QdrantLoad.count_filter st' coll ("menus_" ++ yesterday) none = 0 := by
  have htag : ("menus_" ++ today : String) ≠ "menus_" ++ yesterday :=
    fun h => hne (QdrantLoad.string_append_inj h)
  have hfe : files.isEmpty = false := by
    cases files with
    | nil => exact absurd rfl hfiles
    | cons a l => rfl
  have h1 : ∀ p ∈ QdrantLoad.pointsOf
      (QdrantLoad.delete_by_sitetag (QdrantLoad.loader_setup st0 coll emb_dim) coll
        ("menus_" ++ yesterday)) coll,
      ¬ p.payload.sitetag = "menus_" ++ yesterday := by
    intro p hp
    rw [QdrantLoad.pointsOf_delete] at hp
    have h2 := (List.mem_filter.mp hp).2
    simpa using h2
  obtain ⟨hf1, hf2⟩ := QdrantLoad.fold_file_tags embed coll ("menus_" ++ today) today
    ("menus_" ++ yesterday) htag files
    ⟨QdrantLoad.delete_by_sitetag (QdrantLoad.loader_setup st0 coll emb_dim) coll
      ("menus_" ++ yesterday), [], 0, []⟩
    h1 (by intro p hp; simp at hp)
  have hrun : QdrantLoad.loader_run st0 coll emb_dim today yesterday files true embed
      = .ok (if (files.foldl
              (QdrantLoad.process_file embed coll ("menus_" ++ today) today)
              ⟨QdrantLoad.delete_by_sitetag (QdrantLoad.loader_setup st0 coll emb_dim)
                coll ("menus_" ++ yesterday), [], 0, []⟩).pts.isEmpty then
            (files.foldl (QdrantLoad.process_file embed coll ("menus_" ++ today) today)
              ⟨QdrantLoad.delete_by_sitetag (QdrantLoad.loader_setup st0 coll emb_dim)
                coll ("menus_" ++ yesterday), [], 0, []⟩).st
          else
            QdrantLoad.upsert
              (files.foldl (QdrantLoad.process_file embed coll ("menus_" ++ today) today)
                ⟨QdrantLoad.delete_by_sitetag (QdrantLoad.loader_setup st0 coll emb_dim)
                  coll ("menus_" ++ yesterday), [], 0, []⟩).st
              coll
              (files.foldl (QdrantLoad.process_file embed coll ("menus_" ++ today) today)
                ⟨QdrantLoad.delete_by_sitetag (QdrantLoad.loader_setup st0 coll emb_dim)
                  coll ("menus_" ++ yesterday), [], 0, []⟩).pts) := by
    rw [QdrantLoad.loader_run]
    simp only [hfe, Bool.false_eq_true, if_false, if_true]
  refine ⟨_, hrun, ?_⟩
  have hcount : ∀ stx : QdrantLoad.QdrantState,
      (∀ p ∈ QdrantLoad.pointsOf stx coll, ¬ p.payload.sitetag = "menus_" ++ yesterday) →
      QdrantLoad.count_filter stx coll ("menus_" ++ yesterday) none = 0 := by
    intro stx hx
    rw [QdrantLoad.count_eq, List.length_eq_zero, List.filter_eq_nil_iff]
    intro p hp
    rw [QdrantLoad.matchFilter_none]
    simpa using hx p hp
  split
  · exact hcount _ hf1
  · refine hcount _ ?_
    intro p hp
    rcases QdrantLoad.mem_pointsOf_upsert hp with hmem | hmem
    · exact hf1 p hmem
    · rw [hf2 p hmem]
      exact htag

/-- Witness for the amended C4: a run from a fresh service state over one
unreadable file, with distinct dates, completes and leaves a zero count on
yesterday's partition tag. -/
theorem C4_partition_retirement_witness :
    ∃ st', QdrantLoad.loader_run ⟨[]⟩ "askbucky" 1536 "2025-08-05" "2025-08-04"
        [⟨"a_b_2025-08-05.jsonld", none⟩] true (fun _ => none)
      = .ok st'
    ∧ QdrantLoad.count_filter st' "askbucky" "menus_2025-08-04" none = 0 :=
  C4_partition_retirement ⟨[]⟩ "askbucky" 1536 "2025-08-05" "2025-08-04"
    [⟨"a_b_2025-08-05.jsonld", none⟩] (fun _ => none)
    (List.cons_ne_nil _ _) (by decide)

/-- **C2** — The existence check short-circuits: whenever a point with
(today's partition tag, the file's doc id) is already in the collection,
the per-file step leaves the fold state entirely unchanged — no embedding,
staging or upsert happens for that file.  Consequently, invoking the
Loader twice for the same date with unchanged canonical files yields zero
net-new VectorPoints on the second run: every point of the second run's
final state was already present after the first run, and the second run's
today-partition is exactly the first run's. -/
theorem C2_idempotent_load (st0 : QdrantLoad.QdrantState) (coll : String)
    (emb_dim : Nat) (today yesterday : String) (files : List QdrantLoad.SrcFile)
    (dOk1 dOk2 : Bool) (embed : String → Option (List ℚ))
    (hfiles : files ≠ []) (hne : today ≠ yesterday) :
    (∀ (acc : QdrantLoad.LoadFold) (f : QdrantLoad.SrcFile),
      QdrantLoad.exists_today_for_doc acc.st coll ("menus_" ++ today)
          (QdrantLoad.file_doc_id f.name) = true →
      QdrantLoad.process_file embed coll ("menus_" ++ today) today acc f = acc)
    ∧ ∃ st1 st2,
        QdrantLoad.loader_run st0 coll emb_dim today yesterday files dOk1 embed
          = .ok st1
        ∧ QdrantLoad.loader_run st1 coll emb_dim today yesterday files dOk2 embed
          = .ok st2
        ∧ (∀ p ∈ QdrantLoad.pointsOf st2 coll, p ∈ QdrantLoad.pointsOf st1 coll)
        ∧ (QdrantLoad.pointsOf st2 coll).filter
              (fun p => decide (p.payload.sitetag = "menus_" ++ today))
            = (QdrantLoad.pointsOf st1 coll).filter
              (fun p => decide (p.payload.sitetag = "menus_" ++ today)) := by
  constructor
  · intro acc f hex
    simp [QdrantLoad.process_file, hex]
  · have htag : ("menus_" ++ today : String) ≠ "menus_" ++ yesterday :=
      fun h => hne (QdrantLoad.string_append_inj h)
    obtain ⟨st1, hrun1, hfound1, hpost1⟩ := QdrantLoad.loader_run_post st0 coll emb_dim
      today yesterday files dOk1 embed hfiles
    have hfe : files.isEmpty = false := by
      cases files with
      | nil => exact absurd rfl hfiles
      | cons a l => rfl
    have hex2 : ∀ f ∈ files, QdrantLoad.contentful embed f →
        QdrantLoad.exists_today_for_doc
          (if dOk2 then
            QdrantLoad.delete_by_sitetag (QdrantLoad.loader_setup st1 coll emb_dim)
              coll ("menus_" ++ yesterday)
          else QdrantLoad.loader_setup st1 coll emb_dim)
          coll ("menus_" ++ today) (QdrantLoad.file_doc_id f.name) = true := by
      intro f hf hcf
      have h1 : QdrantLoad.exists_today_for_doc
          (QdrantLoad.loader_setup st1 coll emb_dim) coll ("menus_" ++ today)
          (QdrantLoad.file_doc_id f.name) = true := by
        rw [QdrantLoad.exists_after_setup]
        exact hpost1 f hf hcf
      cases dOk2 with
      | false => simpa using h1
      | true => simpa using QdrantLoad.exists_after_delete _ htag h1
    have hfix : ∀ f ∈ files,
        QdrantLoad.process_file embed coll ("menus_" ++ today) today
          ⟨(if dOk2 then
              QdrantLoad.delete_by_sitetag (QdrantLoad.loader_setup st1 coll emb_dim)
                coll ("menus_" ++ yesterday)
            else QdrantLoad.loader_setup st1 coll emb_dim), [], 0, []⟩ f
          = ⟨(if dOk2 then
              QdrantLoad.delete_by_sitetag (QdrantLoad.loader_setup st1 coll emb_dim)
                coll ("menus_" ++ yesterday)
            else QdrantLoad.loader_setup st1 coll emb_dim), [], 0, []⟩ :=
      fun f hf => QdrantLoad.process_file_fixed embed coll ("menus_" ++ today) today
        _ f (fun hcf => hex2 f hf hcf)
    have hfold : files.foldl
        (QdrantLoad.process_file embed coll ("menus_" ++ today) today)
        ⟨(if dOk2 then
            QdrantLoad.delete_by_sitetag (QdrantLoad.loader_setup st1 coll emb_dim)
              coll ("menus_" ++ yesterday)
          else QdrantLoad.loader_setup st1 coll emb_dim), [], 0, []⟩
        = ⟨(if dOk2 then
            QdrantLoad.delete_by_sitetag (QdrantLoad.loader_setup st1 coll emb_dim)
              coll ("menus_" ++ yesterday)
          else QdrantLoad.loader_setup st1 coll emb_dim), [], 0, []⟩ :=
      QdrantLoad.foldl_fixed _ files _ hfix
    have hrun2 : QdrantLoad.loader_run st1 coll emb_dim today yesterday files dOk2 embed
        = .ok (if dOk2 then
            QdrantLoad.delete_by_sitetag (QdrantLoad.loader_setup st1 coll emb_dim)
              coll ("menus_" ++ yesterday)
          else QdrantLoad.loader_setup st1 coll emb_dim) := by
      rw [QdrantLoad.loader_run]
      simp only [hfe, Bool.false_eq_true, if_false]
      rw [hfold]
      rfl
    have hpts : QdrantLoad.pointsOf
        (if dOk2 then
          QdrantLoad.delete_by_sitetag (QdrantLoad.loader_setup st1 coll emb_dim)
            coll ("menus_" ++ yesterday)
        else QdrantLoad.loader_setup st1 coll emb_dim) coll
        = (if dOk2 then
            (QdrantLoad.pointsOf st1 coll).filter
              (fun p => !decide (p.payload.sitetag = "menus_" ++ yesterday))
          else QdrantLoad.pointsOf st1 coll) := by
      cases dOk2 with
      | false => simpa using QdrantLoad.pointsOf_setup st1 coll emb_dim
      | true =>
        simp only [if_pos]
        rw [QdrantLoad.pointsOf_delete, QdrantLoad.pointsOf_setup]
    refine ⟨st1, _, hrun1, hrun2, ?_, ?_⟩
    · intro p hp
      rw [hpts] at hp
      cases dOk2 with
      | false => simpa using hp
      | true =>
        simp only [if_pos] at hp
        exact (List.mem_filter.mp hp).1
    · rw [hpts]
      cases dOk2 with
      | false => simp
      | true =>
        simp only [if_pos]
        rw [List.filter_filter]
        refine List.filter_congr fun p _ => ?_
        by_cases hpt : p.payload.sitetag = "menus_" ++ today
        · have hpy : ¬ p.payload.sitetag = "menus_" ++ yesterday := by
            rw [hpt]
            exact htag
          simp [hpt, hpy, htag]
        · simp [hpt]

/-- Witness for C2: from a fresh service state, one real document and one
unreadable file, two consecutive runs for the same date; the second adds
nothing. -/
theorem C2_idempotent_load_witness :
    ∃ st1 st2,
      QdrantLoad.loader_run ⟨[]⟩ "askbucky" 1536 "2025-08-05" "2025-08-04"
          [⟨"hall_lunch_2025-08-05.jsonld",
            some (.obj [("name", .str "Pizza")])⟩,
           ⟨"bad_2025-08-05.jsonld", none⟩] true (fun _ => some [1])
        = .ok st1
      ∧ QdrantLoad.loader_run st1 "askbucky" 1536 "2025-08-05" "2025-08-04"
          [⟨"hall_lunch_2025-08-05.jsonld",
            some (.obj [("name", .str "Pizza")])⟩,
           ⟨"bad_2025-08-05.jsonld", none⟩] true (fun _ => some [1])
        = .ok st2
      ∧ (∀ p ∈ QdrantLoad.pointsOf st2 "askbucky",
          p ∈ QdrantLoad.pointsOf st1 "askbucky")
      ∧ (QdrantLoad.pointsOf st2 "askbucky").filter
            (fun p => decide (p.payload.sitetag = "menus_" ++ "2025-08-05"))
          = (QdrantLoad.pointsOf st1 "askbucky").filter
            (fun p => decide (p.payload.sitetag = "menus_" ++ "2025-08-05")) :=
  (C2_idempotent_load ⟨[]⟩ "askbucky" 1536 "2025-08-05" "2025-08-04"
    [⟨"hall_lunch_2025-08-05.jsonld", some (.obj [("name", .str "Pizza")])⟩,
     ⟨"bad_2025-08-05.jsonld", none⟩] true true (fun _ => some [1])
    (List.cons_ne_nil _ _) (by decide)).2

namespace RobustLoad

/-- Helper: an attempt whose subprocess succeeds stops the retry loop. -/
theorem attempts_go_ok (orc : Nat → AttemptResult) (n i : Nat) (h : orc i = .ok) :
    attempts_go orc (n + 1) i = (true, 1) := by
  simp [attempts_go, h]

/-- Helper: an attempt whose subprocess fails (non-zero exit, exception or
timeout) falls through to the remaining attempts. -/
theorem attempts_go_ne_ok (orc : Nat → AttemptResult) (n i : Nat) (h : orc i ≠ .ok) :
    attempts_go orc (n + 1) i =
      ((attempts_go orc n (i + 1)).1, (attempts_go orc n (i + 1)).2 + 1) := by
  cases hv : orc i with
  | ok => exact absurd hv h
  | err => simp [attempts_go, hv]
  | timeout => simp [attempts_go, hv]

end RobustLoad

/-- **C5** — For every target file, the orchestrator invokes the per-file
load operation at most 3 times; a file whose load fails twice and succeeds
on the third attempt is recorded as successful after exactly 3 attempts
with no further attempts; a file whose 3 attempts all fail is recorded as
failed and the run continues with the next file rather than aborting. -/
theorem C5_bounded_retry (orc : String → Nat → RobustLoad.AttemptResult)
    (st : RobustLoad.LoadState) (f : String) (fs : List String) :
    (RobustLoad.load_single_file (orc f)).2 ≤ 3
    ∧ (orc f 0 ≠ .ok → orc f 1 ≠ .ok → orc f 2 = .ok →
        RobustLoad.load_single_file (orc f) = (true, 3)
        ∧ RobustLoad.load_files_go orc (f :: fs) st =
            ((RobustLoad.load_files_go orc fs
                { st with successful_files := st.successful_files ++ [f] }).1,
             List.replicate 3 f
               ++ (RobustLoad.load_files_go orc fs
                    { st with successful_files := st.successful_files ++ [f] }).2))
    ∧ (orc f 0 ≠ .ok → orc f 1 ≠ .ok → orc f 2 ≠ .ok →
        RobustLoad.load_single_file (orc f) = (false, 3)
        ∧ RobustLoad.load_files_go orc (f :: fs) st =
            ((RobustLoad.load_files_go orc fs
                { st with failed_files := st.failed_files ++ [f] }).1,
             List.replicate 3 f
               ++ (RobustLoad.load_files_go orc fs
                    { st with failed_files := st.failed_files ++ [f] }).2)) := by
  refine ⟨?_, ?_, ?_⟩
  · cases h0 : orc f 0 <;> cases h1 : orc f 1 <;> cases h2 : orc f 2 <;>
      simp [RobustLoad.load_single_file, RobustLoad.attempts_go, h0, h1, h2]
  · intro h0 h1 h2
    have hs : RobustLoad.load_single_file (orc f) = (true, 3) := by
      rw [RobustLoad.load_single_file, RobustLoad.attempts_go_ne_ok _ _ _ h0,
        RobustLoad.attempts_go_ne_ok _ _ _ h1, RobustLoad.attempts_go_ok _ _ _ h2]
    exact ⟨hs, by simp [RobustLoad.load_files_go, RobustLoad.load_step, hs]⟩
  · intro h0 h1 h2
    have hs : RobustLoad.load_single_file (orc f) = (false, 3) := by
      rw [RobustLoad.load_single_file, RobustLoad.attempts_go_ne_ok _ _ _ h0,
        RobustLoad.attempts_go_ne_ok _ _ _ h1, RobustLoad.attempts_go_ne_ok _ _ _ h2]
      rfl
    exact ⟨hs, by simp [RobustLoad.load_files_go, RobustLoad.load_step, hs]⟩

/-- Witness for C5 at a concrete oracle: file "a" fails on attempts 0 and 1
and succeeds on attempt 2; file "b" fails on all attempts. -/
theorem C5_bounded_retry_witness :
    (RobustLoad.load_single_file
        (fun i => if i = 2 then .ok else .err) = (true, 3))
    ∧ (RobustLoad.load_single_file (fun _ => .timeout) = (false, 3))
    ∧ RobustLoad.load_files_go
        (fun f i => if f = "a" ∧ i = 2 then .ok else .err)
        ["a", "b"] (RobustLoad.fresh "2025-08-05") =
      (⟨"2025-08-05", ["a"], ["b"], 0⟩, ["a", "a", "a", "b", "b", "b"]) := by
  have h1 := (C5_bounded_retry (fun _ i => if i = 2 then .ok else .err)
    (RobustLoad.fresh "2025-08-05") "a" []).2.1
    (by decide) (by decide) (by decide)
  have h2 := (C5_bounded_retry (fun _ _ => .timeout)
    (RobustLoad.fresh "2025-08-05") "b" []).2.2
    (by decide) (by decide) (by decide)
  exact ⟨h1.1, h2.1, by decide⟩

namespace Cleanup

/-- Helper: membership of a file's encoded date in a cons list of days. -/
theorem tag_in_cons (d : ℤ) (ds : List ℤ) (f : JFile) :
    tag_in (d :: ds) f = (decide (f.tag = some d) || tag_in ds f) := by
  simp [tag_in]

/-- Helper: splitting a filtered length over a disjunction of predicates. -/
theorem length_filter_split (fs : List JFile) (a b : JFile → Bool) :
    (fs.filter fun f => a f).length
        + (fs.filter fun f => b f && !a f).length
      = (fs.filter fun f => a f || b f).length := by
  induction fs with
  | nil => rfl
  | cons f fs ih =>
    cases ha : a f <;> cases hb : b f <;>
      simp [List.filter_cons, ha, hb] <;> omega

/-- Helper: closed form of the sweep's fold over an arbitrary list of
days — survivors are the files not successfully matched-and-unlinked, and
the counter adds one per successful unlink. -/
theorem sweep_fold (ds : List ℤ) (fs : List JFile) (n : Nat) :
    ds.foldl
        (fun acc d =>
          let r := sweep_day acc.1 d
          (r.1, acc.2 + r.2))
        (fs, n)
      = (fs.filter fun f => !(tag_in ds f && f.ok),
         n + (fs.filter fun f => tag_in ds f && f.ok).length) := by
  induction ds generalizing fs n with
  | nil => simp [tag_in]
  | cons d ds ih =>
    rw [List.foldl_cons]
    show ds.foldl _ (sweep_day fs d |>.1, n + (sweep_day fs d |>.2)) = _
    rw [ih]
    simp only [sweep_day, List.filter_filter]
    rw [Prod.mk.injEq]
    constructor
    · refine List.filter_congr fun f _ => ?_
      rw [tag_in_cons]
      cases hd : decide (f.tag = some d) <;> cases hb : tag_in ds f <;>
        cases ho : f.ok <;> rfl
    · rw [Nat.add_assoc]
      congr 1
      rw [length_filter_split fs (fun f => decide (f.tag = some d) && f.ok)
        (fun f => tag_in ds f && f.ok)]
      congr 1
      refine List.filter_congr fun f _ => ?_
      rw [tag_in_cons]
      cases hd : decide (f.tag = some d) <;> cases hb : tag_in ds f <;>
        cases ho : f.ok <;> rfl

/-- Helper: scanning the seven days of the week starting at `L` matches
exactly the files whose encoded date lies in `[L, L+6]`. -/
theorem tag_in_week_eq (L : ℤ) (f : JFile) :
    tag_in (week_of L) f = tag_in_week L f := by
  have hr : week_of L = [L, L + 1, L + 2, L + 3, L + 4, L + 5, L + 6] := by
    simp [week_of, List.range_succ]
  cases ht : f.tag with
  | none => simp [tag_in, tag_in_week, ht, hr]
  | some t =>
    rw [tag_in_week, ht]
    rw [show tag_in (week_of L) f
        = decide (L ≤ t ∧ t ≤ L + 6) from ?_]
    rw [hr, tag_in]
    simp only [List.any_cons, List.any_nil, ht, Option.some.injEq, Bool.or_false]
    rcases Decidable.em (L ≤ t ∧ t ≤ L + 6) with h | h
    · rw [decide_eq_true h]
      have : t = L ∨ t = L + 1 ∨ t = L + 2 ∨ t = L + 3 ∨ t = L + 4 ∨ t = L + 5
          ∨ t = L + 6 := by omega
      rcases this with h1 | h1 | h1 | h1 | h1 | h1 | h1 <;> simp [h1]
    · rw [decide_eq_false h]
      have h1 : ¬ t = L := by omega
      have h2 : ¬ t = L + 1 := by omega
      have h3 : ¬ t = L + 2 := by omega
      have h4 : ¬ t = L + 3 := by omega
      have h5 : ¬ t = L + 4 := by omega
      have h6 : ¬ t = L + 5 := by omega
      have h7 : ¬ t = L + 6 := by omega
      simp [h1, h2, h3, h4, h5, h6, h7]

end Cleanup

/-- **C6** — A retention sweep deletes exactly the canonical files whose
name ends with `_<ISO-date>.jsonld` for a date inside the
Sunday-through-Saturday week immediately preceding the current week, at
any subfolder depth; files dated outside that 7-day window are left
unchanged, a per-file delete failure does not stop the sweep (the file
merely survives), and the count of deleted files is reported.  The last
conjuncts certify that `sunday_of today - 7 … sunday_of today - 1` really
is the Sun-Sat week immediately before the current week. -/
theorem C6_retention_sweep (fs : List Cleanup.JFile) (today : ℤ) :
    (Cleanup.cleanup_run fs today).1
        = fs.filter (fun f => !(Cleanup.tag_in_week (Cleanup.sunday_of today - 7) f && f.ok))
    ∧ (Cleanup.cleanup_run fs today).2
        = (fs.filter (fun f => Cleanup.tag_in_week (Cleanup.sunday_of today - 7) f && f.ok)).length
    ∧ ((∀ f ∈ fs, f.ok = true) →
        (Cleanup.cleanup_run fs today).1
          = fs.filter (fun f => !Cleanup.tag_in_week (Cleanup.sunday_of today - 7) f))
    ∧ Cleanup.weekday (Cleanup.sunday_of today - 7) = 6
    ∧ Cleanup.sunday_of today - 7 + 6 < Cleanup.sunday_of today
    ∧ Cleanup.weekday (Cleanup.sunday_of today) = 6
    ∧ Cleanup.sunday_of today ≤ today ∧ today < Cleanup.sunday_of today + 7
    ∧ (∀ e : ℤ, Cleanup.weekday e = 6 → e ≤ today → e ≤ Cleanup.sunday_of today) := by
  have hrun : Cleanup.cleanup_run fs today
      = (fs.filter fun f => !(Cleanup.tag_in_week (Cleanup.sunday_of today - 7) f && f.ok),
         (fs.filter fun f => Cleanup.tag_in_week (Cleanup.sunday_of today - 7) f && f.ok).length) := by
    rw [Cleanup.cleanup_run]
    rw [Cleanup.sweep_fold]
    refine Prod.ext ?_ ?_
    · refine List.filter_congr fun f _ => ?_
      rw [Cleanup.tag_in_week_eq]
    · show 0 + _ = _
      rw [Nat.zero_add]
      congr 1
      refine List.filter_congr fun f _ => ?_
      rw [Cleanup.tag_in_week_eq]
  refine ⟨by rw [hrun], by rw [hrun], ?_, ?_, ?_, ?_, ?_, ?_, ?_⟩
  · intro hok
    rw [hrun]
    refine List.filter_congr fun f hf => ?_
    rw [hok f hf]
    cases Cleanup.tag_in_week (Cleanup.sunday_of today - 7) f <;> rfl
  · show (today - (today % 7 + 1) % 7 - 7) % 7 = 6
    omega
  · show today - (today % 7 + 1) % 7 - 7 + 6 < today - (today % 7 + 1) % 7
    omega
  · show (today - (today % 7 + 1) % 7) % 7 = 6
    omega
  · show today - (today % 7 + 1) % 7 ≤ today
    omega
  · show today < today - (today % 7 + 1) % 7 + 7
    omega
  · intro e he hle
    show e ≤ today - (today % 7 + 1) % 7
    have : e % 7 = 6 := he
    omega

/-- Witness for C6: today is day 10 (a Thursday, `10 % 7 = 3`); the
preceding Sun-Sat week is days `-1 … 5`.  Files dated inside the window
with a working unlink are deleted, a file dated inside the window whose
unlink fails survives, files outside the window (and files without a date
suffix) are untouched, and the deleted count is reported. -/
theorem C6_retention_sweep_witness :
    (Cleanup.cleanup_run
        [⟨some (-1), true⟩, ⟨some 5, true⟩, ⟨some 6, true⟩,
         ⟨some (-2), true⟩, ⟨none, true⟩, ⟨some 3, false⟩] 10).1
      = [⟨some 6, true⟩, ⟨some (-2), true⟩, ⟨none, true⟩, ⟨some 3, false⟩]
    ∧ (Cleanup.cleanup_run
        [⟨some (-1), true⟩, ⟨some 5, true⟩, ⟨some 6, true⟩,
         ⟨some (-2), true⟩, ⟨none, true⟩, ⟨some 3, false⟩] 10).2 = 2
    ∧ (Cleanup.cleanup_run [⟨some 3, true⟩, ⟨some 8, true⟩] 10).1
      = [⟨some 8, true⟩]
    ∧ (-8 : ℤ) ≤ Cleanup.sunday_of 10 := by
  have h1 := (C6_retention_sweep
    [⟨some (-1), true⟩, ⟨some 5, true⟩, ⟨some 6, true⟩,
     ⟨some (-2), true⟩, ⟨none, true⟩, ⟨some 3, false⟩] 10).1
  have h2 := (C6_retention_sweep
    [⟨some (-1), true⟩, ⟨some 5, true⟩, ⟨some 6, true⟩,
     ⟨some (-2), true⟩, ⟨none, true⟩, ⟨some 3, false⟩] 10).2.1
  have h3 := (C6_retention_sweep [⟨some 3, true⟩, ⟨some 8, true⟩] 10).2.2.1
    (by decide)
  have h4 := (C6_retention_sweep ([] : List Cleanup.JFile) 10).2.2.2.2.2.2.2.2
    (-8) (by decide) (by decide)
  refine ⟨?_, ?_, ?_, h4⟩
  · rw [h1]; decide
  · rw [h2]; decide
  · rw [h3]; decide

namespace Canon

/-- Helper: the item loop with its two `continue`s equals a filter by
`keep_item` followed by the item construction, preserving feed order. -/
theorem buildItems_eq_filter_map (hall meal md sname : String)
    (items : List RawItem) :
    buildItems hall meal md sname items
      = (items.filter (keep_item sname)).map (mkMenuItem hall meal md sname) := by
  induction items with
  | nil => rfl
  | cons itm rest ih =>
    rw [buildItems]
    cases h1 : header_row sname (strTrim (itm.food.getD {}).name) <;>
      cases h2 : marker_row (itm.food.getD {}).serving_size_info <;>
      simp [h1, h2, ih, keep_item, List.filter_cons]

/-- Helper: the `servingWeight` field of a built item is the computed
grams when truthy, else omitted. -/
theorem servingWeight_spec (hall meal md sname : String) (itm : RawItem) :
    (mkMenuItem hall meal md sname itm).servingWeight
      = (if qTruthy (item_grams (itm.food.getD {}).serving_size_info)
         then item_grams (itm.food.getD {}).serving_size_info else none) := rfl

end Canon

/-- **C7** — For every menu item with no (truthy) gram serving weight and
a serving-size unit starting with "oz", the Canonicalizer sets
`servingWeight` to the ounce amount converted by `oz_to_g` (multiply by
28.3495, round to one decimal); an explicit non-zero gram value is used
unchanged; when neither a gram value nor an ounce amount is present the
field is omitted (`none`). -/
theorem C7_serving_weight (hall meal menu_date sname : String)
    (itm : Canon.RawItem) (a g : ℚ) :
    ((Canon.qTruthy (itm.food.getD {}).serving_size_info.serving_size_grams = false) →
      (itm.food.getD {}).serving_size_info.serving_size_unit ≠ "" →
      Canon.strStarts (Canon.strLower (itm.food.getD {}).serving_size_info.serving_size_unit) "oz" = true →
      (itm.food.getD {}).serving_size_info.serving_size_amount = some a →
      Canon.oz_to_g a ≠ 0 →
      (Canon.mkMenuItem hall meal menu_date sname itm).servingWeight
        = some (Canon.oz_to_g a))
    ∧ ((itm.food.getD {}).serving_size_info.serving_size_grams = some g → g ≠ 0 →
      (Canon.mkMenuItem hall meal menu_date sname itm).servingWeight = some g)
    ∧ ((itm.food.getD {}).serving_size_info.serving_size_grams = none →
      (Canon.strStarts (Canon.strLower (itm.food.getD {}).serving_size_info.serving_size_unit) "oz" = false
        ∨ (itm.food.getD {}).serving_size_info.serving_size_amount = none) →
      (Canon.mkMenuItem hall meal menu_date sname itm).servingWeight = none) := by
  refine ⟨?_, ?_, ?_⟩
  · intro hg hu hoz ham hnz
    rw [Canon.servingWeight_spec]
    have hig : Canon.item_grams (itm.food.getD {}).serving_size_info
        = some (Canon.oz_to_g a) := by
      simp [Canon.item_grams, hg, hu, hoz, ham]
    rw [hig]
    simp [Canon.qTruthy, hnz]
  · intro hg hgnz
    rw [Canon.servingWeight_spec]
    have hig : Canon.item_grams (itm.food.getD {}).serving_size_info = some g := by
      simp [Canon.item_grams, hg, Canon.qTruthy, hgnz]
    rw [hig]
    simp [Canon.qTruthy, hgnz]
  · intro hg hcase
    rw [Canon.servingWeight_spec]
    simp only [Canon.item_grams]
    split
    · rcases hcase with hoz | ham
      · rename_i hcond
        rw [hoz] at hcond
        simp at hcond
      · rw [ham]
        have hz : Canon.oz_to_g ((none : Option ℚ).getD 0) = 0 := by
          norm_num [Canon.oz_to_g, Canon.round1, round_eq]
        rw [hz]
        simp [Canon.qTruthy]
    · rw [hg]
      simp [Canon.qTruthy]

/-- Witness for C7: the spec's own example — serving size "2 oz" with no
gram value yields `servingWeight = 56.7`; an explicit 120 g value is kept;
an item with no serving-size information at all omits the field. -/
theorem C7_serving_weight_witness :
    (Canon.mkMenuItem "gordon" "lunch" "2025-08-05" "Sides"
        ⟨false, "", some ⟨"Fries", "", "", "", none, {}, ⟨some 2, "oz", none⟩, []⟩⟩).servingWeight
      = some (567 / 10)
    ∧ (Canon.mkMenuItem "gordon" "lunch" "2025-08-05" "Sides"
        ⟨false, "", some ⟨"Soup", "", "", "", none, {}, ⟨none, "", some 120⟩, []⟩⟩).servingWeight
      = some 120
    ∧ (Canon.mkMenuItem "gordon" "lunch" "2025-08-05" "Sides"
        ⟨false, "", some ⟨"Napkin", "", "", "", none, {}, {}, []⟩⟩).servingWeight
      = none := by
  have h1 := (C7_serving_weight "gordon" "lunch" "2025-08-05" "Sides"
    ⟨false, "", some ⟨"Fries", "", "", "", none, {}, ⟨some 2, "oz", none⟩, []⟩⟩
    2 0).1 rfl (by decide) (by decide) rfl
    (by norm_num [Canon.oz_to_g, Canon.round1, round_eq])
  have h2 := (C7_serving_weight "gordon" "lunch" "2025-08-05" "Sides"
    ⟨false, "", some ⟨"Soup", "", "", "", none, {}, ⟨none, "", some 120⟩, []⟩⟩
    0 120).2.1 rfl (by norm_num)
  have h3 := (C7_serving_weight "gordon" "lunch" "2025-08-05" "Sides"
    ⟨false, "", some ⟨"Napkin", "", "", "", none, {}, {}, []⟩⟩ 0 0).2.2
    rfl (Or.inl (by decide))
  refine ⟨?_, h2, h3⟩
  rw [h1]
  norm_num [Canon.oz_to_g, Canon.round1, round_eq]

/-- **C8** — For every day and every named section, the output document's
item list is exactly the section's bucketed line-items filtered by
`keep_item` and mapped through the item construction, in feed order;
`keep_item` excludes precisely the header rows (food name equal to the
section name, after the source's strip/lowercase normalization) and the
items whose serving-size text contains the "customer" exclusion marker;
the bucketed items are exactly the day's non-section-title items with this
section's menu id; and the document so built is among `transform_menu`'s
outputs. -/
theorem C8_header_and_marker_exclusion (hall meal : String) (day : Canon.Day)
    (mid : String) (meta : Canon.SectionMeta) (sname : String)
    (hdn : meta.section_options.display_name = some sname) (hne : sname ≠ "")
    (hit : Canon.sectionItems day.menu_items mid ≠ []) :
    Canon.transformSection hall meal day (mid, meta)
      = some
        ({ name := sname ++ " – " ++ Canon.menuDate day
           datePublished := Canon.menuDate day
           hall := hall
           meal := meal
           hasMenuSection :=
             [⟨sname,
               ((Canon.sectionItems day.menu_items mid).filter
                   (Canon.keep_item sname)).map
                 (Canon.mkMenuItem hall meal (Canon.menuDate day) sname)⟩] },
         Canon.out_fname hall meal sname (Canon.menuDate day))
    ∧ (∀ itm : Canon.RawItem,
        Canon.keep_item sname itm
          = (!Canon.header_row sname (Canon.strTrim (itm.food.getD {}).name)
             && !Canon.marker_row (itm.food.getD {}).serving_size_info))
    ∧ (∀ itm : Canon.RawItem,
        itm ∈ Canon.sectionItems day.menu_items mid
          ↔ itm ∈ day.menu_items ∧ itm.is_section_title = false ∧ itm.menu_id = mid)
    ∧ (∀ raw : Canon.RawFeed, day ∈ raw.days → (mid, meta) ∈ day.menu_info →
        (({ name := sname ++ " – " ++ Canon.menuDate day
            datePublished := Canon.menuDate day
            hall := hall
            meal := meal
            hasMenuSection :=
              [⟨sname,
                ((Canon.sectionItems day.menu_items mid).filter
                    (Canon.keep_item sname)).map
                  (Canon.mkMenuItem hall meal (Canon.menuDate day) sname)⟩] },
          Canon.out_fname hall meal sname (Canon.menuDate day))
            : Canon.MenuOut × String)
          ∈ Canon.transform_menu raw hall meal) := by
  have hsec : Canon.transformSection hall meal day (mid, meta)
      = some
        ({ name := sname ++ " – " ++ Canon.menuDate day
           datePublished := Canon.menuDate day
           hall := hall
           meal := meal
           hasMenuSection :=
             [⟨sname,
               ((Canon.sectionItems day.menu_items mid).filter
                   (Canon.keep_item sname)).map
                 (Canon.mkMenuItem hall meal (Canon.menuDate day) sname)⟩] },
         Canon.out_fname hall meal sname (Canon.menuDate day)) := by
    rw [Canon.transformSection]
    simp only [hdn, hne, if_false, hit]
    rw [Canon.buildItems_eq_filter_map]
  refine ⟨hsec, ?_, ?_, ?_⟩
  · intro itm
    rfl
  · intro itm
    simp [Canon.sectionItems, List.mem_filter, and_assoc]
  · intro raw hday hmeta
    rw [Canon.transform_menu]
    rw [List.mem_flatMap]
    refine ⟨day, hday, ?_⟩
    rw [List.mem_filterMap]
    exact ⟨(mid, meta), hmeta, hsec⟩

/-- Witness for C8: a two-item section where "Fruit" is a header row
(name equals the section name), a "customer"-marked item is excluded, and
the one real item survives in order. -/
theorem C8_header_and_marker_exclusion_witness :
    Canon.transformSection "gordon" "lunch"
        ⟨some "2025-08-05", [("7", ⟨⟨some "Fruit"⟩⟩)],
         [⟨false, "7", some ⟨"Fruit", "", "", "", none, {}, {}, []⟩⟩,
          ⟨false, "7", some ⟨"Apple", "", "", "", none, {}, {}, []⟩⟩,
          ⟨false, "7", some ⟨"Topping", "", "", "", none, {},
            ⟨some 1, "Per Customer Request", none⟩, []⟩⟩]⟩
        ("7", ⟨⟨some "Fruit"⟩⟩)
      = some
        (⟨"Fruit – 2025-08-05", "2025-08-05", "gordon", "lunch",
          [⟨"Fruit",
            [Canon.mkMenuItem "gordon" "lunch" "2025-08-05" "Fruit"
              ⟨false, "7", some ⟨"Apple", "", "", "", none, {}, {}, []⟩⟩]⟩]⟩,
         "gordon_lunch_fruit_2025-08-05.jsonld") := by
  have h := C8_header_and_marker_exclusion "gordon" "lunch"
    ⟨some "2025-08-05", [("7", ⟨⟨some "Fruit"⟩⟩)],
     [⟨false, "7", some ⟨"Fruit", "", "", "", none, {}, {}, []⟩⟩,
      ⟨false, "7", some ⟨"Apple", "", "", "", none, {}, {}, []⟩⟩,
      ⟨false, "7", some ⟨"Topping", "", "", "", none, {},
        ⟨some 1, "Per Customer Request", none⟩, []⟩⟩]⟩
    "7" ⟨⟨some "Fruit"⟩⟩ "Fruit"
    rfl (by decide) (by decide)
  rw [h.1]
  decide

/-- **C9** — For every (entity, meal) pair fetched, a raw file keyed by
week-start date and `<slug>_<meal>_<weekstart>.json` is written exactly
when the HTTP status is 200, some day has some line-item with a populated
`food` field, and the response's own `school_slug` is absent/empty or
equals the requested slug; `menu_is_empty` holds exactly when every day's
every line-item lacks a populated `food`; an unparseable body writes
nothing. -/
theorem C9_closed_detection (slug meal sunday : String) (status : Nat)
    (data : Canon.RawFeed) :
    (FetchMenu.fetch slug meal sunday status (some data)
      = if status = 200 ∧ FetchMenu.menu_is_empty data = false
            ∧ (data.school_slug = "" ∨ data.school_slug = slug) then
          some ⟨sunday, slug ++ "_" ++ meal ++ "_" ++ sunday ++ ".json", data⟩
        else none)
    ∧ (FetchMenu.menu_is_empty data = true
        ↔ ∀ day ∈ data.days, ∀ itm ∈ day.menu_items, itm.food = none)
    ∧ FetchMenu.fetch slug meal sunday status none = none := by
  refine ⟨?_, ?_, ?_⟩
  · rw [FetchMenu.fetch]
    by_cases hst : status = 200
    · by_cases hme : FetchMenu.menu_is_empty data
      · simp [hst, hme]
      · rw [Bool.not_eq_true] at hme
        by_cases hsl : data.school_slug ≠ "" ∧ data.school_slug ≠ slug
        · have hno : ¬ (data.school_slug = "" ∨ data.school_slug = slug) := by
            tauto
          simp [hst, hme, hsl, hno]
        · have hyes : data.school_slug = "" ∨ data.school_slug = slug := by
            tauto
          simp [hst, hme, hsl, hyes]
    · simp [hst]
  · simp [FetchMenu.menu_is_empty, List.all_eq_true, Option.isNone_iff_eq_none]
  · rw [FetchMenu.fetch]
    by_cases hst : status = 200 <;> simp [hst]

/-- **C1** — the claim "a resumed run does not re-invoke the load operation
for files recorded successful" fails on the code: `load_all_files` iterates
over every file found for the date and never consults `successful_files`,
so a resumed run with both files already recorded successful still invokes
the subprocess for each of them (this theorem evaluates the model at that
failing input: both files appear in the invocation trace). -/
theorem C1_resume_reinvokes_successful :
    let st : RobustLoad.LoadState := ⟨"2025-08-05", ["a.jsonld", "b.jsonld"], [], 2⟩
    let out := RobustLoad.main_run (some st) true ["a.jsonld", "b.jsonld"]
      (fun _ _ => .ok)
    "a.jsonld" ∈ st.successful_files ∧ "b.jsonld" ∈ st.successful_files
    ∧ "a.jsonld" ∈ out.trace ∧ "b.jsonld" ∈ out.trace := by
  decide

/-- **C10** — When zero files match the target date, the load phase
completes and the run is classified `success` with no subprocess ever
invoked, but `generate_report` divides by the zero `total_files` and
raises `ZeroDivisionError`; the top-level handler saves the `LoadState`
and the process exits with status 1. -/
theorem C10_zero_files_report_crash (resumeY : Bool)
    (orc : String → Nat → RobustLoad.AttemptResult) :
    let out := RobustLoad.main_run none resumeY [] orc
    RobustLoad.run_status out.finalState = "success"
    ∧ out.finalState.failed_files = []
    ∧ out.trace = []
    ∧ out.reportError = true
    ∧ out.savedState = some out.finalState
    ∧ out.exitCode = 1 := by
  exact ⟨rfl, rfl, rfl, rfl, rfl, rfl⟩
